import Mathlib

/-!
# The OCI hook dispatcher of nerdctl (`pkg/ocihook/ocihook.go`)

A shallow embedding of the hook dispatcher: the handlers `onCreateRuntime`,
`onStartContainer` and `onPostStop`, the option builder `newHandlerOpts`, the
namespace-option generators and the helpers they rest on.

Conventions of the embedding.

* A Go function that talks to a collaborator (CNI, the hosts store, the name
  store, RootlessKit, bypass4netnsd, the filesystem) becomes a function into
  `Eff`: it yields the list of collaborator calls it made, in order, and either
  a value or the error it returned.
* What a collaborator answers is read from a `World`.
* Go errors are values of `Err`; `fmt.Errorf` wrappers keep their cause.
* `*handlerOpts` is passed by value; where the source could write through the
  pointer the function returns the record again.
-/

namespace Ocihook

/-! ## Errors -/

/-- Error values returned by the hook. -/
inductive Err where
  /-- Go `errors.New("got insufficient args")` -/
  | insufficientArgs
  /-- Go `errors.New("state dir must be set")` -/
  | stateDirUnset
  /-- Go `errors.New("namespace must be set")` -/
  | namespaceUnset
  /-- Go `errors.New("state.ID must be set")` -/
  | stateIDUnset
  /-- Go `errors.New("both state.Pid and the netNs annotation are unset")` -/
  | netnsUnset
  /-- Go `fmt.Errorf("no such network: %q", netstr)` -/
  | noSuchNetwork (netstr : String)
  /-- Go `fmt.Errorf("unexpected network type %v", netType)` -/
  | unexpectedNetworkType
  /-- Go `fmt.Errorf("unexpected event %q", event)` -/
  | unexpectedEvent (event : String)
  /-- An error of `encoding/json` (syntax error, type mismatch, unexpected end of input). -/
  | json
  /-- An error value produced by a collaborator. -/
  | ext (msg : String)
  /-- A wrapper `fmt.Errorf("<msg>: %w", cause)` (or `%s`); `msg` is the constant text of the
  format. -/
  | wrap (msg : String) (cause : Err)
  /-- A Go run-time panic (index out of range, nil pointer dereference). -/
  | goPanic (msg : String)
  deriving DecidableEq, Repr

/-! ## Data model -/

/-- The struct `gocni.PortMapping`. -/
structure PortMapping where
  HostPort : Int
  ContainerPort : Int
  Protocol : String
  HostIP : String
  deriving DecidableEq, Repr

/-- A Go `map[string]V`, as an association list without repeated keys. -/
abbrev GoMap (V : Type) := List (String × V)

/-- The map index expression `m[k]` with the comma-ok form. -/
def GoMap.get? {V : Type} (m : GoMap V) (k : String) : Option V :=
  (m.find? (fun e => e.1 == k)).map Prod.snd

/-- The map assignment `m[k] = v`. -/
def GoMap.set {V : Type} (m : GoMap V) (k : String) (v : V) : GoMap V :=
  (k, v) :: m.filter (fun e => !(e.1 == k))

/-- The annotations of the runtime state, a `map[string]string`. -/
abbrev Annotations := GoMap String

/-- The plain index expression `m[k]` on a string map: the zero value when absent. -/
def Annotations.val (m : Annotations) (k : String) : String :=
  (GoMap.get? m k).getD ""

/-- The fields of `specs.State` the hook reads. -/
structure State where
  ID : String
  Pid : Int
  Bundle : String
  Annotations : Annotations
  deriving DecidableEq, Repr

/-- An element of `[]gocni.NamespaceOpts`. -/
inductive NamespaceOpt where
  /-- Go `gocni.WithCapabilityPortMap(ports)` -/
  | capabilityPortMap (ports : List PortMapping)
  /-- Go `gocni.WithLabels(labels)` -/
  | labels (kv : List (String × String))
  /-- Go `gocni.WithArgs(k, v)` -/
  | args (k v : String)
  /-- Go `gocni.WithCapability(name, values)` -/
  | capability (name : String) (values : List String)
  deriving DecidableEq, Repr

/-- A `*types100.Result` of one network, identified by a number. -/
abbrev CniResult := Nat

/-- The struct `hostsstore.Meta`. -/
structure Meta where
  Namespace : String
  ID : String
  Networks : GoMap CniResult
  Hostname : String
  ExtraHosts : GoMap String
  Name : String
  deriving DecidableEq, Repr

/-- A `gocni.CNI` handle: the plugin directory and the configuration lists it was built from. -/
structure CNIHandle where
  pluginDir : String
  confLists : List String
  deriving DecidableEq, Repr

/-- The struct `handlerOpts`. A nil interface value is `none` (for the two clients: `false`). -/
structure handlerOpts where
  state : State
  dataStore : String
  rootfs : String
  ports : List PortMapping
  cni : Option CNIHandle
  cniNames : List String
  fullID : String
  rootlessKitClient : Bool
  bypassClient : Bool
  extraHosts : GoMap String
  containerIP : String
  containerMAC : String
  containerIP6 : String
  deriving DecidableEq, Repr

/-- A `net.IP`: a byte slice; the nil slice is the empty list. -/
abbrev IP := List Nat

/-! ## Collaborator calls -/

/-- The calls the hook makes on its collaborators. -/
inductive Call where
  /-- Go `os.MkdirAll(dir, 0700)` -/
  | mkdirAll (dir : String) (mode : Nat)
  /-- Go `os.Create(path)` -/
  | createFile (path : String)
  /-- Go `logFile.Close()` in the deferred function of `Run` -/
  | closeFile (path : String)
  /-- Go `os.Open(path)` followed by decoding the hook spec in `loadSpec` -/
  | openSpec (path : String)
  /-- Go `os.Stat(path)` -/
  | stat (path : String)
  /-- Go `netutil.NewCNIEnv(cniPath, cniNetconfPath, WithNamespace(namespace), WithDefaultNetwork())` -/
  | newCNIEnv (cniPath cniNetconfPath ns : String)
  /-- Go `e.NetworkMap()` -/
  | networkMap
  /-- Go `gocni.New(WithPluginDir([cniPath]), WithConfListBytes(b)...)` -/
  | gocniNew (pluginDir : String) (confLists : List String)
  /-- Go `writePidFile(path, pid)` -/
  | writePidFile (path : String) (pid : Int)
  /-- Go `rootlessutil.NewRootlessKitClient()` -/
  | newRootlessKitClient
  /-- Go `b4nndclient.New(socketPath)` -/
  | newBypassClient (socketPath : String)
  /-- Go `opts.rootlessKitClient.Info(ctx)` -/
  | rlkInfo
  /-- Go `loadAppArmor()` -/
  | loadAppArmor
  /-- Go `hostsstore.NewStore(dataStore)` -/
  | hostsNewStore (dataStore : String)
  /-- Go `hs.Acquire(meta)` -/
  | hostsAcquire (m : Meta)
  /-- Go `hs.Release(ns, id)` -/
  | hostsRelease (ns id : String)
  /-- Go `opts.cni.Setup(ctx, fullID, nsPath, namespaceOpts...)` -/
  | cniSetup (fullID nsPath : String) (nsOpts : List NamespaceOpt)
  /-- Go `opts.cni.Remove(ctx, fullID, nsPath, namespaceOpts...)` -/
  | cniRemove (fullID nsPath : String) (nsOpts : List NamespaceOpt)
  /-- Go `bm.StartBypass(ctx, ports, id, stateDir)` -/
  | startBypass (ports : List PortMapping) (id stateDir : String)
  /-- Go `bm.StopBypass(ctx, id)` -/
  | stopBypass (id : String)
  /-- Go `exposePortsRootless(ctx, client, ports)` -/
  | exposePorts (ports : List PortMapping)
  /-- Go `unexposePortsRootless(ctx, client, ports)` -/
  | unexposePorts (ports : List PortMapping)
  /-- Go `namestore.New(dataStore, ns)` -/
  | nameNew (dataStore ns : String)
  /-- Go `namst.Acquire(name, id)` -/
  | nameAcquire (name id : String)
  /-- Go `namst.Release(name, id)` -/
  | nameRelease (name id : String)
  /-- Go `lf.WithLock(...)`: taking the lock of the lifecycle state under `stateDir` -/
  | lfLock (stateDir : String)
  /-- Go `lf.Load()` -/
  | lfLoad (stateDir : String)
  /-- Go `lf.Save()` after `lf.StartedAt = now` -/
  | lfSave (stateDir : String) (startedAt : Nat)
  deriving DecidableEq, Repr

/-! ## The effect type -/

/-- What a run of a function yields: the calls made, in order, and the value or error returned. -/
structure Eff (α : Type) where
  trace : List Call
  result : Except Err α

/-- Return a value without calling anything. -/
def Eff.ret {α : Type} (a : α) : Eff α := ⟨[], .ok a⟩

/-- Return an error without calling anything (`return err`). -/
def Eff.fail {α : Type} (e : Err) : Eff α := ⟨[], .error e⟩

/-- Sequencing with `if err != nil { return err }` after the first part. -/
def Eff.andThen {α β : Type} (m : Eff α) (f : α → Eff β) : Eff β :=
  match m.result with
  | .error e => ⟨m.trace, .error e⟩
  | .ok a => ⟨m.trace ++ (f a).trace, (f a).result⟩

instance : Monad Eff where
  pure := Eff.ret
  bind := Eff.andThen

/-- Replace the error of a step (`fmt.Errorf("...: %w", err)`). -/
def Eff.mapErr {α : Type} (m : Eff α) (g : Err → Err) : Eff α :=
  match m.result with
  | .error e => ⟨m.trace, .error (g e)⟩
  | .ok a => ⟨m.trace, .ok a⟩

/-- A step whose error is only logged: the run goes on with `none`. -/
def Eff.logged {α : Type} (m : Eff α) : Eff (Option α) :=
  match m.result with
  | .error _ => ⟨m.trace, .ok none⟩
  | .ok a => ⟨m.trace, .ok (some a)⟩

instance instDecidableEqExcept {α : Type} [DecidableEq α] : DecidableEq (Except Err α) := fun a b =>
  match a, b with
  | .ok x, .ok y =>
    if h : x = y then isTrue (by rw [h]) else isFalse (by intro h2; cases h2; exact h rfl)
  | .error x, .error y =>
    if h : x = y then isTrue (by rw [h]) else isFalse (by intro h2; cases h2; exact h rfl)
  | .ok _, .error _ => isFalse (by intro h; cases h)
  | .error _, .ok _ => isFalse (by intro h; cases h)

/-- Whether a result is an error. -/
def isError {α : Type} : Except Err α → Bool
  | .error _ => true
  | .ok _ => false

/-! ## Strings -/

/-- Go `strings.SplitN(s, ":", 2)` on the characters of `s`: the text before the first colon and,
when there is a colon, all the text after it. -/
def splitN2 : List Char → List (List Char)
  | [] => [[]]
  | c :: cs =>
    if c = ':' then [[], cs]
    else match splitN2 cs with
      | [a] => [c :: a]
      | [a, b] => [c :: a, b]
      | _ => []

/-- Go `strings.SplitN(s, ":", 2)`. -/
def stringsSplitN2 (s : String) : List String :=
  (splitN2 s.toList).map String.mk

/-! ## The JSON decoder on string arrays

Go `json.Unmarshal(data, &v)` for `v` of type `[]string`: it succeeds exactly on a valid JSON
text that is `null` or an array whose elements are strings or `null`; every other input is a
syntax error, an unexpected end of input or a type error. -/

/-- Skip JSON white space (space, tab, line feed, carriage return). -/
def skipWs : List Char → List Char
  | [] => []
  | c :: cs => if c = ' ' ∨ c = '\t' ∨ c = '\n' ∨ c = '\r' then skipWs cs else c :: cs

/-- The value of a hexadecimal digit. -/
def hexVal (c : Char) : Option Nat :=
  if '0' ≤ c ∧ c ≤ '9' then some (c.toNat - '0'.toNat)
  else if 'a' ≤ c ∧ c ≤ 'f' then some (c.toNat - 'a'.toNat + 10)
  else if 'A' ≤ c ∧ c ≤ 'F' then some (c.toNat - 'A'.toNat + 10)
  else none

/-- Four hexadecimal digits at the head of the input, as a number. -/
def hex4 : List Char → Option (Nat × List Char)
  | a :: b :: c :: d :: rest =>
    match hexVal a, hexVal b, hexVal c, hexVal d with
    | some x, some y, some z, some w => some (((x * 16 + y) * 16 + z) * 16 + w, rest)
    | _, _, _, _ => none
  | _ => none

/-- The rune of a `\u` escape whose number is `r`, with the rest of the input: a surrogate pair
is combined, a lone surrogate is the replacement character. -/
def unescapeU (r : Nat) (rest : List Char) : Char × List Char :=
  if 0xD800 ≤ r ∧ r < 0xE000 then
    match rest with
    | '\\' :: 'u' :: rest2 =>
      match hex4 rest2 with
      | some (r2, rest3) =>
        if 0xD800 ≤ r ∧ r < 0xDC00 ∧ 0xDC00 ≤ r2 ∧ r2 < 0xE000 then
          (Char.ofNat ((r - 0xD800) * 1024 + (r2 - 0xDC00) + 0x10000), rest3)
        else (Char.ofNat 0xFFFD, rest)
      | none => (Char.ofNat 0xFFFD, rest)
    | _ => (Char.ofNat 0xFFFD, rest)
  else (Char.ofNat r, rest)

/-- The body of a JSON string after its opening quote: the decoded text and the input after
the closing quote. -/
def jsonStringBody : Nat → List Char → List Char → Option (List Char × List Char)
  | 0, _, _ => none
  | _ + 1, [], _ => none
  | fuel + 1, c :: cs, acc =>
    if c = '"' then some (acc.reverse, cs)
    else if c = '\\' then
      match cs with
      | '"' :: r => jsonStringBody fuel r ('"' :: acc)
      | '\\' :: r => jsonStringBody fuel r ('\\' :: acc)
      | '/' :: r => jsonStringBody fuel r ('/' :: acc)
      | 'b' :: r => jsonStringBody fuel r (Char.ofNat 8 :: acc)
      | 'f' :: r => jsonStringBody fuel r (Char.ofNat 12 :: acc)
      | 'n' :: r => jsonStringBody fuel r ('\n' :: acc)
      | 'r' :: r => jsonStringBody fuel r ('\r' :: acc)
      | 't' :: r => jsonStringBody fuel r ('\t' :: acc)
      | 'u' :: r =>
        match hex4 r with
        | some (n, r2) => jsonStringBody fuel (unescapeU n r2).2 ((unescapeU n r2).1 :: acc)
        | none => none
      | _ => none
    else if c.toNat < 0x20 then none
    else jsonStringBody fuel cs (c :: acc)

/-- One element of the array: a string, or `null` (which leaves the zero value). -/
def jsonElem (cs : List Char) : Option (String × List Char) :=
  match cs with
  | '"' :: r => (jsonStringBody (r.length + 1) r []).map (fun p => (String.mk p.1, p.2))
  | 'n' :: 'u' :: 'l' :: 'l' :: r => some ("", r)
  | _ => none

/-- The elements of the array after the first one, up to the closing bracket. -/
def jsonElems : Nat → List Char → List String → Option (List String × List Char)
  | 0, _, _ => none
  | fuel + 1, cs, acc =>
    match skipWs cs with
    | ']' :: r => some (acc.reverse, r)
    | ',' :: r =>
      match jsonElem (skipWs r) with
      | some (s, r2) => jsonElems fuel r2 (s :: acc)
      | none => none
    | _ => none

/-- The JSON value at the head of the input, as a string array. -/
def jsonArray (cs : List Char) : Option (List String × List Char) :=
  match cs with
  | 'n' :: 'u' :: 'l' :: 'l' :: r => some ([], r)
  | '[' :: r =>
    match skipWs r with
    | ']' :: r2 => some ([], r2)
    | r1 =>
      match jsonElem r1 with
      | some (s, r2) => jsonElems (r2.length + 1) r2 [s]
      | none => none
  | _ => none

/-- Go `json.Unmarshal([]byte(data), &v)` with `v` a nil `[]string`. -/
def jsonUnmarshalStrings (data : String) : Except Err (List String) :=
  match jsonArray (skipWs data.toList) with
  | some (v, rest) => if skipWs rest = [] then .ok v else .error .json
  | none => .error .json

/-! ## The package `net`: IP addresses

Go `net.IP` is a byte slice of length 4 or 16 (or nil). `net.ParseIP` always yields the 16-byte
form and rejects zones. -/

/-- The 12 bytes `v4InV6Prefix`. -/
def v4InV6Bytes : List Nat := [0, 0, 0, 0, 0, 0, 0, 0, 0, 0, 0xff, 0xff]

/-- Go `net.IPv4zero`, in 16-byte form. -/
def IPv4zero : IP := v4InV6Bytes ++ [0, 0, 0, 0]

/-- Go `net.IPv6unspecified`. -/
def IPv6unspecified : IP := List.replicate 16 0

/-- Go `net.IPv6loopback`. -/
def IPv6loopback : IP := List.replicate 15 0 ++ [1]

/-- Go `parseIPv4Fields`: four decimal octets separated by dots, none above 255, none with a
leading zero. The arguments after the input are the loop variables `val`, `pos`, `digLen`, the
fields stored so far, whether the index is 0 and whether the previous byte was a dot. -/
def parseIPv4Fields : List Char → Nat → Nat → Nat → List Nat → Bool → Bool → Option (List Nat)
  | [], val, pos, _, fields, _, _ => if pos < 3 then none else some (fields ++ [val])
  | c :: cs, val, pos, digLen, fields, first, prevDot =>
    if '0' ≤ c ∧ c ≤ '9' then
      if digLen = 1 ∧ val = 0 then none
      else if val * 10 + (c.toNat - '0'.toNat) > 255 then none
      else parseIPv4Fields cs (val * 10 + (c.toNat - '0'.toNat)) pos (digLen + 1) fields false false
    else if c = '.' then
      if first ∨ cs = [] ∨ prevDot then none
      else if pos = 3 then none
      else parseIPv4Fields cs 0 (pos + 1) 0 (fields ++ [val]) false true
    else none

/-- Go `parseIPv4`. -/
def parseIPv4 (s : List Char) : Option (List Nat) :=
  parseIPv4Fields s 0 0 0 [] true false

/-- The hexadecimal digits at the head of a group of `parseIPv6`: the number of digits read, the
value, and the input after them; `none` when a fifth digit is met. -/
def hexGroup : List Char → Nat → Nat → Option (Nat × Nat × List Char)
  | [], off, acc => some (off, acc, [])
  | c :: cs, off, acc =>
    match hexVal c with
    | some d => if off > 3 then none else hexGroup cs (off + 1) (acc * 16 + d)
    | none => some (off, acc, c :: cs)

/-- The loop of `parseIPv6` over the colon-separated groups: `ip` holds the bytes stored so far
(its length is the index `i` of the source), `ellipsis` the place of the `::` if one was seen.
It yields the bytes, the place of the ellipsis and the unread input. -/
def parseIPv6Loop : Nat → List Char → List Nat → Option Nat →
    Option (List Nat × Option Nat × List Char)
  | 0, _, _, _ => none
  | fuel + 1, s, ip, ellipsis =>
    if ip.length < 16 then
      match hexGroup s 0 0 with
      | none => none
      | some (off, acc, rest) =>
        if off = 0 then none
        else if rest.head? = some '.' then
          if ellipsis = none ∧ ip.length ≠ 12 then none
          else if ip.length + 4 > 16 then none
          else match parseIPv4 s with
            | none => none
            | some v4 => some (ip ++ v4, ellipsis, [])
        else
          match rest with
          | [] => some (ip ++ [acc / 256, acc % 256], ellipsis, [])
          | c :: r1 =>
            if c ≠ ':' then none
            else match r1 with
              | [] => none
              | c2 :: r2 =>
                if c2 = ':' then
                  if ellipsis.isSome then none
                  else if r2 = [] then
                    some (ip ++ [acc / 256, acc % 256], some (ip.length + 2), [])
                  else parseIPv6Loop fuel r2 (ip ++ [acc / 256, acc % 256]) (some (ip.length + 2))
                else parseIPv6Loop fuel (c2 :: r2) (ip ++ [acc / 256, acc % 256]) ellipsis
    else some (ip, ellipsis, s)

/-- The end of `parseIPv6`: all input must be used, and a short address is filled with zeros at
the ellipsis. -/
def parseIPv6Finish (r : List Nat × Option Nat × List Char) : Option (List Nat) :=
  if r.2.2 ≠ [] then none
  else if r.1.length < 16 then
    match r.2.1 with
    | none => none
    | some e => some (r.1.take e ++ List.replicate (16 - r.1.length) 0 ++ r.1.drop e)
  else if r.2.1.isSome then none
  else some r.1

/-- Go `parseIPv6`, for an input without zone. -/
def parseIPv6 (s : List Char) : Option (List Nat) :=
  match s with
  | ':' :: ':' :: rest =>
    if rest = [] then some IPv6unspecified
    else (parseIPv6Loop (rest.length + 1) rest [] (some 0)).bind parseIPv6Finish
  | _ => (parseIPv6Loop (s.length + 1) s [] none).bind parseIPv6Finish

/-- Go `netip.ParseAddr` followed by `As16`: the first of `.`, `:`, `%` in the input decides
how it is read. -/
def parseAddr16 (whole : List Char) : List Char → Option (List Nat)
  | [] => none
  | c :: cs =>
    if c = '.' then (parseIPv4 whole).map (fun v4 => v4InV6Bytes ++ v4)
    else if c = ':' then (if '%' ∈ whole then none else parseIPv6 whole)
    else if c = '%' then none
    else parseAddr16 whole cs

/-- Go `net.ParseIP`; `none` is the nil result. -/
def ParseIP (s : String) : Option IP :=
  parseAddr16 s.toList s.toList

/-- Go `ip.To4()`; `none` is the nil result. -/
def IP.To4 (ip : IP) : Option IP :=
  if ip.length = 4 then some ip
  else if ip.length = 16 ∧ ip.take 10 = List.replicate 10 0 ∧ ip.drop 10 = 0xff :: 0xff :: ip.drop 12
    then some (ip.drop 12)
  else none

/-- Go `ip.Equal(x)`. -/
def IP.Equal (ip x : IP) : Bool :=
  if ip.length = x.length then ip = x
  else if ip.length = 4 ∧ x.length = 16 then x.take 12 = v4InV6Bytes ∧ ip = x.drop 12
  else if ip.length = 16 ∧ x.length = 4 then ip.take 12 = v4InV6Bytes ∧ ip.drop 12 = x
  else false

/-- Go `ip.IsUnspecified()`. -/
def IP.IsUnspecified (ip : IP) : Bool :=
  ip.Equal IPv4zero || ip.Equal IPv6unspecified

/-- Go `ip.IsLoopback()`. -/
def IP.IsLoopback (ip : IP) : Bool :=
  match ip.To4 with
  | some ip4 => ip4.head? = some 127
  | none => ip.Equal IPv6loopback

/-- Lower-case hexadecimal digits of a number, without leading zeros. -/
def hexDigits (n : Nat) : List Char := Nat.toDigits 16 n

/-- Go `hexString`: two hexadecimal digits for every byte. -/
def hexString (b : List Nat) : List Char :=
  b.flatMap (fun x => [Nat.digitChar (x / 16), Nat.digitChar (x % 16)])

/-- The eight 16-bit groups of a 16-byte address. -/
def groups16 : List Nat → List Nat
  | a :: b :: rest => (a * 256 + b) :: groups16 rest
  | _ => []

/-- The number of zero groups at the head of a list. -/
def zeroRun : List Nat → Nat
  | [] => 0
  | g :: gs => if g = 0 then zeroRun gs + 1 else 0

/-- The first longest run of at least two zero groups, as start and end index, searched from
index `i` on; `best` is the run found so far. -/
def longestZeroRun : List Nat → Nat → Option (Nat × Nat) → Option (Nat × Nat)
  | [], _, best => best
  | g :: gs, i, best =>
    let l := zeroRun (g :: gs)
    let cur := match best with
      | some (s, e) => e - s
      | none => 0
    if l ≥ 2 ∧ l > cur then longestZeroRun gs (i + 1) (some (i, i + l))
    else longestZeroRun gs (i + 1) best

/-- The text of the groups from index `i` on, in the form of `netip.Addr.String` for an
IPv6 address whose zero run is `run`. -/
def fmtGroups : Nat → List Nat → Nat → Option (Nat × Nat) → List Char
  | 0, _, _, _ => []
  | fuel + 1, gs, i, run =>
    if i ≥ 8 then []
    else match run with
      | some (zs, ze) =>
        if i = zs then
          if ze ≥ 8 then [':', ':']
          else [':', ':'] ++ hexDigits (gs.getD ze 0) ++ fmtGroups fuel gs (ze + 1) run
        else (if i > 0 then [':'] else []) ++ hexDigits (gs.getD i 0) ++ fmtGroups fuel gs (i + 1) run
      | none => (if i > 0 then [':'] else []) ++ hexDigits (gs.getD i 0) ++ fmtGroups fuel gs (i + 1) run

/-- The dotted form of four bytes. -/
def dotted (b : List Nat) : List Char :=
  (".".intercalate (b.map (fun x => toString x))).toList

/-- Go `ip.String()`. -/
def IP.String (ip : IP) : String :=
  if ip.length = 0 then "<nil>"
  else if ip.length ≠ 4 ∧ ip.length ≠ 16 then String.mk ('?' :: hexString ip)
  else match ip.To4 with
    | some p4 => String.mk (dotted p4)
    | none => String.mk (fmtGroups 9 (groups16 ip) 0 (longestZeroRun (groups16 ip) 0 none))

/-! ## The package `path/filepath` (Unix) -/

/-- Split a path at every slash. -/
def splitSlash : List Char → List (List Char)
  | [] => [[]]
  | c :: cs =>
    if c = '/' then [] :: splitSlash cs
    else match splitSlash cs with
      | h :: t => (c :: h) :: t
      | [] => [[c]]

/-- The elements of a cleaned path: empty and `.` elements are dropped, `..` removes the element
before it, or stays when the path is not rooted and nothing is left to remove. `out` is the
result so far, last element first. -/
def cleanElems (rooted : Bool) : List (List Char) → List (List Char) → List (List Char)
  | [], out => out.reverse
  | c :: cs, out =>
    if c = [] ∨ c = ['.'] then cleanElems rooted cs out
    else if c = ['.', '.'] then
      match out with
      | top :: rest =>
        if top = ['.', '.'] then cleanElems rooted cs (c :: out) else cleanElems rooted cs rest
      | [] => if rooted then cleanElems rooted cs [] else cleanElems rooted cs [c]
    else cleanElems rooted cs (c :: out)

/-- Go `filepath.Clean`. -/
def filepathClean (path : String) : String :=
  if path = "" then "."
  else
    let rooted : Bool := path.toList.head? = some '/'
    let body := String.mk (List.intercalate ['/'] (cleanElems rooted (splitSlash path.toList) []))
    let out := (if rooted then "/" else "") ++ body
    if out = "" then "." else out

/-- Go `filepath.Join`: the elements from the first non-empty one on, joined by slashes and
cleaned. -/
def filepathJoin : List String → String
  | [] => ""
  | e :: rest => if e = "" then filepathJoin rest else filepathClean ("/".intercalate (e :: rest))

/-- Go `filepath.IsAbs`. -/
def filepathIsAbs (path : String) : Bool :=
  path.toList.head? = some '/'

/-! ## Annotation keys -/

/-- Modelled from the spec: the annotation keys of `pkg/labels`, a package of this repository
that is not among the sources; the names are those of the table of recognised annotations, under
the shared prefix. -/
def labels.Prefix : String := "nerdctl/"

/-- Modelled from the spec: the key `namespace` of `pkg/labels`. -/
def labels.Namespace : String := labels.Prefix ++ "namespace"

/-- Modelled from the spec: the key `name` of `pkg/labels`. -/
def labels.Name : String := labels.Prefix ++ "name"

/-- Modelled from the spec: the key `hostname` of `pkg/labels`. -/
def labels.Hostname : String := labels.Prefix ++ "hostname"

/-- Modelled from the spec: the key `extraHosts` of `pkg/labels`. -/
def labels.ExtraHosts : String := labels.Prefix ++ "extraHosts"

/-- Modelled from the spec: the key `state-dir` of `pkg/labels`. -/
def labels.StateDir : String := labels.Prefix ++ "state-dir"

/-- Modelled from the spec: the key `networks` of `pkg/labels`. -/
def labels.Networks : String := labels.Prefix ++ "networks"

/-- Modelled from the spec: the key `ports` of `pkg/labels`. -/
def labels.Ports : String := labels.Prefix ++ "ports"

/-- Modelled from the spec: the key `ip-address` of `pkg/labels`. -/
def labels.IPAddress : String := labels.Prefix ++ "ip-address"

/-- Modelled from the spec: the key `ip6-address` of `pkg/labels`. -/
def labels.IP6Address : String := labels.Prefix ++ "ip6-address"

/-- Modelled from the spec: the key `mac-address` of `pkg/labels`. -/
def labels.MACAddress : String := labels.Prefix ++ "mac-address"

/-- Modelled from the spec: the key `pid-file` of `pkg/labels`. -/
def labels.PIDFile : String := labels.Prefix ++ "pid-file"

/-- The constant `NetworkNamespace`. -/
def NetworkNamespace : String := labels.Prefix ++ "network-namespace"

/-! ## The collaborators -/

/-- The outcomes of `nettype.Detect`, and any other value of the type. -/
inductive NetType where
  | Host
  | None
  | Container
  | CNI
  | Invalid
  deriving DecidableEq, Repr

/-- The struct `api.NetworkDriverInfo` of RootlessKit, as far as the hook reads it. -/
structure NetworkDriverInfo where
  ChildIP : IP
  deriving DecidableEq, Repr

/-- The struct `api.PortDriverInfo` of RootlessKit, as far as the hook reads it. -/
structure PortDriverInfo where
  DisallowLoopbackChildIP : Bool
  deriving DecidableEq, Repr

/-- The struct `api.Info` of RootlessKit, as far as the hook reads it: its fields
`NetworkDriver` and `PortDriver` are pointers, left nil (here `none`) by a supervisor that runs
without that driver. -/
structure Info where
  NetworkDriver : Option NetworkDriverInfo
  PortDriver : Option PortDriverInfo
  deriving DecidableEq, Repr

/-- What the collaborators of the hook answer. -/
structure World where
  /-- The error a call returns, if it fails. -/
  fails : Call → Option Err
  /-- Go `rootlessutil.IsRootlessChild()` -/
  isRootlessChild : Bool
  /-- The answer of `rootlessKitClient.Info`: the info, or an error. -/
  rlkInfo : Except Err Info
  /-- The array `cniRes.Raw()` of a successful `cni.Setup`. -/
  cniSetupRaw : String → String → List NamespaceOpt → List CniResult
  /-- The field `root.path` decoded from the bundle configuration at a path. -/
  hookSpecRootPath : String → String
  /-- The map of `e.NetworkMap()`: the configuration bytes of every known network. -/
  netMap : GoMap String
  /-- The handle `gocni.New` returns when it succeeds (it may be nil). -/
  gocniHandle : String → List String → Option CNIHandle
  /-- Go `nettype.Detect(networks)` -/
  detect : List String → Except Err NetType
  /-- Go `bypass4netnsutil.IsBypass4netnsEnabled(annotations)`: enabled, bind enabled. -/
  isBypass4netnsEnabled : Annotations → Except Err (Bool × Bool)
  /-- The error of `bypass4netnsutil.NewBypass4netnsCNIBypassManager(bypassClient,
  rootlessKitClient, annotations)`, if it fails. -/
  newBypassManager : Bool → Bool → Annotations → Option Err
  /-- Go `bypass4netnsutil.GetBypass4NetnsdDefaultSocketPath()` -/
  bypassSocketPath : Except Err String
  /-- Go `json.Unmarshal([]byte(portsJSON), &o.ports)` -/
  decodePorts : String → Except Err (List PortMapping)
  /-- Go `time.Now()` -/
  now : Nat

/-- Make a call and give `v` back when it succeeds. -/
def World.query {α : Type} (W : World) (c : Call) (v : α) : Eff α :=
  ⟨[c], match W.fails c with
    | some e => .error e
    | none => .ok v⟩

/-- Make a call that returns only an error. -/
def World.exec (W : World) (c : Call) : Eff Unit := W.query c ()

/-- Lift a result computed without calls. -/
def Eff.ofExcept {α : Type} (r : Except Err α) : Eff α := ⟨[], r⟩

/-- Lift a call-free check that returns only an error. -/
def Eff.ofOption (r : Option Err) : Eff Unit :=
  match r with
  | some e => Eff.fail e
  | none => Eff.ret ()

/-- A deferred call: made after the body whatever its result, which it does not change. -/
def Eff.deferred {α : Type} (m : Eff α) (c : Call) : Eff α := ⟨m.trace ++ [c], m.result⟩

/-! ## The hook -/

/-- The loop of `getExtraHosts` over the decoded list: an entry that `strings.SplitN(host, ":", 2)`
cuts in two parts sets `hosts[v[0]] = v[1]`. -/
def extraHostsLoop : List String → GoMap String → GoMap String
  | [], hosts => hosts
  | host :: rest, hosts =>
    match stringsSplitN2 host with
    | [k, v] => extraHostsLoop rest (hosts.set k v)
    | _ => extraHostsLoop rest hosts

/-- The function `getExtraHosts`. -/
def getExtraHosts (state : State) : Except Err (GoMap String) :=
  match jsonUnmarshalStrings (state.Annotations.val labels.ExtraHosts) with
  | .error e => .error e
  | .ok extraHosts => .ok (extraHostsLoop extraHosts [])

/-- The function `loadSpec`; it yields `root.path`. -/
def loadSpec (W : World) (bundle : String) : Eff String :=
  W.query (.openSpec (filepathJoin [bundle, "config.json"]))
    (W.hookSpecRootPath (filepathJoin [bundle, "config.json"]))

/-- The function `getNetNSPath`. -/
def getNetNSPath (W : World) (state : State) : Eff String :=
  match GoMap.get? state.Annotations NetworkNamespace with
  | some netNsPath => W.query (.stat netNsPath) netNsPath
  | none =>
    if state.Pid = 0 then Eff.fail .netnsUnset
    else W.query (.stat ("/proc/" ++ toString state.Pid ++ "/ns/net"))
      ("/proc/" ++ toString state.Pid ++ "/ns/net")

/-- The body of the loop of `getPortMapOpts` on the local copy `p` of a port: the host IP is
rewritten when it is not bindable in the child namespace. -/
def rewriteHostIP (childIP : IP) (portDriverDisallowsLoopbackChildIP : Bool)
    (p : PortMapping) : PortMapping :=
  match ParseIP p.HostIP with
  | some hostIP =>
    if !hostIP.IsUnspecified then
      if !hostIP.IsLoopback then
        if !(childIP ≠ [] && childIP.Equal hostIP) then
          if portDriverDisallowsLoopbackChildIP then { p with HostIP := childIP.String }
          else { p with HostIP := "127.0.0.1" }
        else p
      else if portDriverDisallowsLoopbackChildIP then { p with HostIP := childIP.String }
      else p
    else p
  | none => p

/-- The two slices the loop of `getPortMapOpts` works on. -/
structure PortMem where
  /-- The slice `opts.ports`. -/
  optsPorts : List PortMapping
  /-- The fresh slice `ports`. -/
  ports : List PortMapping
  deriving DecidableEq, Repr

/-- The loop `for i, p := range opts.ports` of `getPortMapOpts`, from index `i` for `n` rounds:
`p` is a copy of `opts.ports[i]`, and the round ends with `ports[i] = p`. -/
def portLoop (childIP : IP) (disallow : Bool) : Nat → Nat → PortMem → PortMem
  | 0, _, m => m
  | n + 1, i, m =>
    match m.optsPorts[i]? with
    | some p =>
      portLoop childIP disallow n (i + 1)
        { m with ports := m.ports.set i (rewriteHostIP childIP disallow p) }
    | none => m

/-- The zero value of `gocni.PortMapping`. -/
def PortMapping.zero : PortMapping := ⟨0, 0, "", ""⟩

/-- What `getPortMapOpts` takes from the answer of the Info call: `childIP` and
`portDriverDisallowsLoopbackChildIP`. An error is only logged and leaves the nil IP and false;
in an answer the fields `info.NetworkDriver.ChildIP` and
`info.PortDriver.DisallowLoopbackChildIP` are read in this order without a nil check, so a nil
`NetworkDriver` or `PortDriver` panics. -/
def readInfo (answer : Except Err Info) : Except Err (IP × Bool) :=
  match answer with
  | .error _ => .ok ([], false)
  | .ok info =>
    match info.NetworkDriver with
    | none => .error (.goPanic "nil pointer dereference")
    | some networkDriver =>
      match info.PortDriver with
      | none => .error (.goPanic "nil pointer dereference")
      | some portDriver => .ok (networkDriver.ChildIP, portDriver.DisallowLoopbackChildIP)

/-- The function `getPortMapOpts`; `opts` is a pointer in the source and is given back as the
function leaves it. -/
def getPortMapOpts (W : World) (opts : handlerOpts) : Eff (handlerOpts × List NamespaceOpt) :=
  if opts.ports.length > 0 then
    if !W.isRootlessChild then
      Eff.ret (opts, [.capabilityPortMap opts.ports])
    else
      (⟨[.rlkInfo], readInfo W.rlkInfo⟩ : Eff (IP × Bool)).andThen fun r =>
        let m := portLoop r.1 r.2 opts.ports.length 0
          ⟨opts.ports, List.replicate opts.ports.length PortMapping.zero⟩
        Eff.ret ({ opts with ports := m.optsPorts }, [.capabilityPortMap m.ports])
  else Eff.ret (opts, [])

/-- The function `getIPAddressOpts`. -/
def getIPAddressOpts (opts : handlerOpts) : List NamespaceOpt :=
  if opts.containerIP ≠ "" then
    [.labels [("IgnoreUnknown", "1")], .args "IP" opts.containerIP]
  else []

/-- The function `getMACAddressOpts`. -/
def getMACAddressOpts (opts : handlerOpts) : List NamespaceOpt :=
  if opts.containerMAC ≠ "" then
    [.labels [("IgnoreUnknown", "1")], .args "MAC" opts.containerMAC]
  else []

/-- The function `getIP6AddressOpts`. -/
def getIP6AddressOpts (opts : handlerOpts) : List NamespaceOpt :=
  if opts.containerIP6 ≠ "" then
    [.labels [("IgnoreUnknown", "1")], .capability "ips" [opts.containerIP6]]
  else []

/-- The loop `for i, cniName := range opts.cniNames { hsMeta.Networks[cniName] = cniResRaw[i] }`
of `applyNetworkSettings`, from index `i` on; an index outside `cniResRaw` panics. -/
def networksLoop : List String → Nat → List CniResult → GoMap CniResult →
    Except Err (GoMap CniResult)
  | [], _, _, nets => .ok nets
  | cniName :: rest, i, cniResRaw, nets =>
    match cniResRaw[i]? with
    | some r => networksLoop rest (i + 1) cniResRaw (nets.set cniName r)
    | none => .error (.goPanic "index out of range")

/-- The hosts-store meta `applyNetworkSettings` builds, before `Networks` is filled. -/
def hsMetaInit (opts : handlerOpts) : Meta :=
  { Namespace := opts.state.Annotations.val labels.Namespace
    ID := opts.state.ID
    Networks := []
    Hostname := opts.state.Annotations.val labels.Hostname
    ExtraHosts := opts.extraHosts
    Name := opts.state.Annotations.val labels.Name }

/-- The rootless part of `applyNetworkSettings`: start the bypass, expose the ports. -/
def startRootless (W : World) (opts : handlerOpts) (b4nnEnabled b4nnBindEnabled : Bool) :
    Eff Unit :=
  if W.isRootlessChild then
    (if b4nnEnabled then
      (Eff.ofOption (W.newBypassManager opts.bypassClient opts.rootlessKitClient
        opts.state.Annotations)).andThen fun _ =>
      (W.exec (.startBypass opts.ports opts.state.ID
        (opts.state.Annotations.val labels.StateDir))).mapErr
        (.wrap "bypass4netnsd not running? (Hint: run containerd-rootless-setuptool.sh install-bypass4netnsd)")
    else Eff.ret ()).andThen fun _ =>
    if !b4nnBindEnabled ∧ opts.ports.length > 0 then
      (W.exec (.exposePorts opts.ports)).mapErr (.wrap "failed to expose ports in rootless mode")
    else Eff.ret ()
  else Eff.ret ()

/-- The function `applyNetworkSettings`. -/
def applyNetworkSettings (W : World) (opts0 : handlerOpts) : Eff Unit :=
  (getPortMapOpts W opts0).andThen fun r =>
  let opts := r.1
  let portMapOpts := r.2
  (getNetNSPath W opts.state).andThen fun nsPath =>
  (W.exec (.hostsNewStore opts.dataStore)).andThen fun _ =>
  let namespaceOpts := portMapOpts ++ getIPAddressOpts opts ++ getMACAddressOpts opts ++
    getIP6AddressOpts opts ++
    [.labels [("IgnoreUnknown", "1")],
     .args "NERDCTL_CNI_DHCP_HOSTNAME" (opts.state.Annotations.val labels.Hostname)]
  match opts.cni with
  | none => Eff.fail (.goPanic "nil pointer dereference")
  | some _ =>
    ((W.query (.cniSetup opts.fullID nsPath namespaceOpts)
      (W.cniSetupRaw opts.fullID nsPath namespaceOpts)).mapErr
      (.wrap "failed to call cni.Setup")).andThen fun cniResRaw =>
    (Eff.ofExcept (networksLoop opts.cniNames 0 cniResRaw [])).andThen fun nets =>
    (Eff.ofExcept (W.isBypass4netnsEnabled opts.state.Annotations)).andThen fun b =>
    (W.exec (.hostsAcquire { hsMetaInit opts with Networks := nets })).andThen fun _ =>
    startRootless W opts b.1 b.2

/-- The function `onCreateRuntime`. -/
def onCreateRuntime (W : World) (opts : handlerOpts) : Eff Unit :=
  (⟨[.loadAppArmor], .ok ()⟩ : Eff Unit).andThen fun _ =>
  if opts.cni.isSome then applyNetworkSettings W opts else Eff.ret ()

/-- The function `onStartContainer`. -/
def onStartContainer (W : World) (opts : handlerOpts) : Eff Unit :=
  ((W.exec (.nameNew opts.dataStore (opts.state.Annotations.val labels.Namespace))).andThen
    fun _ => W.exec (.nameAcquire (opts.state.Annotations.val labels.Name)
      opts.state.ID)).logged.andThen fun _ =>
  (if opts.cni.isSome then applyNetworkSettings W opts else Eff.ret ()).andThen fun _ =>
  (W.exec (.lfLock (opts.state.Annotations.val labels.StateDir))).andThen fun _ =>
  (W.exec (.lfLoad (opts.state.Annotations.val labels.StateDir))).andThen fun _ =>
  W.exec (.lfSave (opts.state.Annotations.val labels.StateDir) W.now)

/-- The rootless part of `onPostStop`: stop the bypass, unexpose the ports. -/
def stopRootless (W : World) (opts : handlerOpts) (b4nnEnabled b4nnBindEnabled : Bool) :
    Eff Unit :=
  if W.isRootlessChild then
    (if b4nnEnabled then
      (Eff.ofOption (W.newBypassManager opts.bypassClient opts.rootlessKitClient
        opts.state.Annotations)).andThen fun _ =>
      W.exec (.stopBypass opts.state.ID)
    else Eff.ret ()).andThen fun _ =>
    if !b4nnBindEnabled ∧ opts.ports.length > 0 then
      (W.exec (.unexposePorts opts.ports)).mapErr
        (.wrap "failed to unexpose ports in rootless mode")
    else Eff.ret ()
  else Eff.ret ()

/-- The network part of `onPostStop`, run when `opts.cni != nil`. -/
def postStopNetwork (W : World) (opts0 : handlerOpts) : Eff Unit :=
  (Eff.ofExcept (W.isBypass4netnsEnabled opts0.state.Annotations)).andThen fun b =>
  (stopRootless W opts0 b.1 b.2).andThen fun _ =>
  (getPortMapOpts W opts0).andThen fun r =>
  let opts := r.1
  let namespaceOpts := r.2 ++ getIPAddressOpts opts ++ getMACAddressOpts opts ++
    getIP6AddressOpts opts
  (W.exec (.cniRemove opts.fullID "" namespaceOpts)).andThen fun _ =>
  (W.exec (.hostsNewStore opts.dataStore)).andThen fun _ =>
  W.exec (.hostsRelease (opts.state.Annotations.val labels.Namespace) opts.state.ID)

/-- The function `onPostStop`. -/
def onPostStop (W : World) (opts : handlerOpts) : Eff Unit :=
  (if opts.cni.isSome then postStopNetwork W opts else Eff.ret ()).andThen fun _ =>
  (W.exec (.nameNew opts.dataStore (opts.state.Annotations.val labels.Namespace))).andThen
    fun _ =>
  (W.exec (.nameRelease (opts.state.Annotations.val labels.Name) opts.state.ID)).mapErr
    (.wrap ("failed to release container name " ++ opts.state.Annotations.val labels.Name))

/-- The loop of `newHandlerOpts` over the requested networks: every name must be in the network
map; its configuration bytes and its name are appended. -/
def cniConfLoop (netMap : GoMap String) : List String → List String → List String →
    Except Err (List String × List String)
  | [], confs, names => .ok (confs, names)
  | netstr :: rest, confs, names =>
    match GoMap.get? netMap netstr with
    | some bytes => cniConfLoop netMap rest (confs ++ [bytes]) (names ++ [netstr])
    | none => .error (.noSuchNetwork netstr)

/-- The `switch netType` of `newHandlerOpts`: the CNI handle and the network names. -/
def buildCNI (W : World) (netType : NetType) (networks : List String)
    (cniPath cniNetconfPath ns : String) : Eff (Option CNIHandle × List String) :=
  match netType with
  | .Host => Eff.ret (none, [])
  | .None => Eff.ret (none, [])
  | .Container => Eff.ret (none, [])
  | .CNI =>
    (W.exec (.newCNIEnv cniPath cniNetconfPath ns)).andThen fun _ =>
    (W.exec .networkMap).andThen fun _ =>
    (Eff.ofExcept (cniConfLoop W.netMap networks [] [])).andThen fun r =>
    (W.query (.gocniNew cniPath r.1) (W.gocniHandle cniPath r.1)).andThen fun h =>
    Eff.ret (h, r.2)
  | .Invalid => Eff.fail .unexpectedNetworkType

/-- The rootless part of `newHandlerOpts`: whether the two clients were built. -/
def buildRootlessClients (W : World) (ann : Annotations) : Eff (Bool × Bool) :=
  if W.isRootlessChild then
    (W.exec .newRootlessKitClient).andThen fun _ =>
    (Eff.ofExcept (W.isBypass4netnsEnabled ann)).andThen fun b =>
    if b.1 then
      (Eff.ofExcept W.bypassSocketPath).andThen fun socketPath =>
      ((W.exec (.newBypassClient socketPath)).mapErr
        (.wrap "bypass4netnsd not running? (Hint: run containerd-rootless-setuptool.sh install-bypass4netnsd)")).andThen
        fun _ => Eff.ret (true, true)
    else Eff.ret (true, false)
  else Eff.ret (false, false)

/-- The function `newHandlerOpts`. -/
def newHandlerOpts (W : World) (state : State) (dataStore cniPath cniNetconfPath : String) :
    Eff handlerOpts :=
  (Eff.ofExcept (getExtraHosts state)).andThen fun extraHosts =>
  (loadSpec W state.Bundle).andThen fun rootPath =>
  let rootfs := if !filepathIsAbs rootPath then filepathJoin [state.Bundle, rootPath] else rootPath
  if state.Annotations.val labels.Namespace = "" then Eff.fail .namespaceUnset
  else if state.ID = "" then Eff.fail .stateIDUnset
  else
    (Eff.ofExcept (jsonUnmarshalStrings (state.Annotations.val labels.Networks))).andThen
      fun networks =>
    (Eff.ofExcept (W.detect networks)).andThen fun netType =>
    (buildCNI W netType networks cniPath cniNetconfPath
      (state.Annotations.val labels.Namespace)).andThen fun c =>
    (if state.Annotations.val labels.PIDFile ≠ "" then
      W.exec (.writePidFile (state.Annotations.val labels.PIDFile) state.Pid)
    else Eff.ret ()).andThen fun _ =>
    (if state.Annotations.val labels.Ports ≠ "" then
      Eff.ofExcept (W.decodePorts (state.Annotations.val labels.Ports))
    else Eff.ret []).andThen fun ports =>
    (buildRootlessClients W state.Annotations).andThen fun clients =>
    Eff.ret
      { state := state
        dataStore := dataStore
        rootfs := rootfs
        ports := ports
        cni := c.1
        cniNames := c.2
        fullID := state.Annotations.val labels.Namespace ++ "-" ++ state.ID
        rootlessKitClient := clients.1
        bypassClient := clients.2
        extraHosts := extraHosts
        containerIP := state.Annotations.val labels.IPAddress
        containerMAC := state.Annotations.val labels.MACAddress
        containerIP6 := state.Annotations.val labels.IP6Address }

/-- The `switch event` of `Run`. -/
def dispatch (W : World) (event : String) (opts : handlerOpts) : Eff Unit :=
  if event = "createRuntime" then onCreateRuntime W opts
  else if event = "startContainer" then onStartContainer W opts
  else if event = "postStop" then onPostStop W opts
  else Eff.fail (.unexpectedEvent event)

/-- The function `Run`. The reader `stdin` is `none` when nil, and else is given by what
`json.NewDecoder(stdin).Decode(&state)` yields from it. -/
def Run (W : World) (stdin : Option (Except Err State))
    (event dataStore cniPath cniNetconfPath : String) : Eff Unit :=
  match stdin with
  | none => Eff.fail .insufficientArgs
  | some decoded =>
    if event = "" ∨ dataStore = "" ∨ cniPath = "" ∨ cniNetconfPath = "" then
      Eff.fail .insufficientArgs
    else
      (Eff.ofExcept decoded).andThen fun state =>
      if state.Annotations.val labels.StateDir = "" then Eff.fail .stateDirUnset
      else
        ((W.exec (.mkdirAll (state.Annotations.val labels.StateDir) 0o700)).mapErr
          (.wrap "failed to create")).andThen fun _ =>
        (W.exec (.createFile (filepathJoin [state.Annotations.val labels.StateDir,
          "oci-hook." ++ event ++ ".log"]))).andThen fun _ =>
        Eff.deferred
          ((newHandlerOpts W state dataStore cniPath cniNetconfPath).andThen fun opts =>
            dispatch W event opts)
          (.closeFile (filepathJoin [state.Annotations.val labels.StateDir,
            "oci-hook." ++ event ++ ".log"]))

/-! ## The specification of the extra hosts -/

/-- Whether an entry contains a colon. -/
def hasColon (e : String) : Bool := e.toList.contains ':'

/-- The text of an entry before its first colon. -/
def beforeColon (e : String) : String := String.mk (e.toList.takeWhile (fun c => c ≠ ':'))

/-- The text of an entry after its first colon. -/
def afterColon (e : String) : String := String.mk ((e.toList.dropWhile (fun c => c ≠ ':')).drop 1)

/-- The value the list of entries gives to a hostname, in the words of the specification: the
text after the first colon of the last entry that contains a colon and has the hostname before
its first colon. -/
def lastBinding (l : List String) (k : String) : Option String :=
  (l.reverse.find? (fun e => hasColon e && beforeColon e == k)).map afterColon

/-- A state whose only annotation is a list of extra hosts. -/
def stateExtraHosts : State :=
  { ID := "c1", Pid := 4242, Bundle := "/b"
    Annotations := [(labels.ExtraHosts, "[\"h:::1\",\"bad\",\"g:10.0.0.1\",\"h:10.0.0.2\"]")] }

/-! ## Example inputs -/

/-- A world in which every call succeeds: not rootless, no bypass, no known network. -/
def quietWorld : World :=
  { fails := fun _ => none
    isRootlessChild := false
    rlkInfo := .ok ⟨some ⟨[]⟩, some ⟨false⟩⟩
    cniSetupRaw := fun _ _ _ => []
    hookSpecRootPath := fun _ => "rootfs"
    netMap := []
    gocniHandle := fun d c => some ⟨d, c⟩
    detect := fun _ => .ok .CNI
    isBypass4netnsEnabled := fun _ => .ok (false, false)
    newBypassManager := fun _ _ _ => none
    bypassSocketPath := .ok "/run/bypass4netnsd.sock"
    decodePorts := fun _ => .ok []
    now := 0 }

/-- Handler options of a container `c1` in namespace `default` with the given ports and
CNI networks. -/
def optsOf (ports : List PortMapping) (cniNames : List String) : handlerOpts :=
  { state :=
      { ID := "c1", Pid := 4242, Bundle := "/b"
        Annotations := [(labels.Namespace, "default"), (labels.StateDir, "/run/s/c1"),
          (labels.Name, "web")] }
    dataStore := "/data"
    rootfs := "/b/rootfs"
    ports := ports
    cni := if cniNames = [] then none else some ⟨"/opt/cni/bin", cniNames⟩
    cniNames := cniNames
    fullID := "default-c1"
    rootlessKitClient := true
    bypassClient := true
    extraHosts := []
    containerIP := ""
    containerMAC := ""
    containerIP6 := "" }

/-- A rootless world whose supervisor reports the child IP `c` and the bit `d`. -/
def rootlessWorld (c : IP) (d : Bool) : World :=
  { quietWorld with isRootlessChild := true, rlkInfo := .ok ⟨some ⟨c⟩, some ⟨d⟩⟩ }

/-- A rootless world with the bypass enabled, bind not enabled, whose supervisor reports the
child IP `c` and the bit `d`. -/
def bypassWorld (c : IP) (d : Bool) : World :=
  { rootlessWorld c d with
    isBypass4netnsEnabled := fun _ => .ok (true, false)
    cniSetupRaw := fun _ _ _ => [7] }

/-- A world, not rootless, whose CNI setup returns the array `raw`. -/
def cniWorld (raw : List CniResult) : World :=
  { quietWorld with cniSetupRaw := fun _ _ _ => raw }

/-- The world `W` in which the call `c0` fails with the error `e`, every other call as in `W`. -/
def World.failingAt (W : World) (c0 : Call) (e : Err) : World :=
  { W with fails := fun c => if c = c0 then some e else W.fails c }

/-- The error `onPostStop` returns when its call `c` has failed with the error `e`: the error of
the unexpose is wrapped by `fmt.Errorf("failed to unexpose ports in rootless mode: %s", err)`,
that of the name release by `fmt.Errorf("failed to release container name %s: %w", name, err)`,
and every other error is returned as it is. -/
def postStopError (c : Call) (e : Err) : Err :=
  match c with
  | .unexposePorts _ => .wrap "failed to unexpose ports in rootless mode" e
  | .nameRelease name _ => .wrap ("failed to release container name " ++ name) e
  | _ => e

/-- A run stops at a failed call: a call of the run that fails (the supervisor Info apart, whose
failure is only logged) is the last call made, and the run returns the error `postStopError`
gives for it. -/
def StopsAtFailure (W : World) {α : Type} (m : Eff α) : Prop :=
  ∀ c ∈ m.trace, c ≠ .rlkInfo → ∀ e, W.fails c = some e →
    m.trace.getLast? = some c ∧ m.result = .error (postStopError c e)

/-- Whether a call is one of the two name-store calls of `onStartContainer`. -/
def Call.isNameAcquire : Call → Bool
  | .nameNew _ _ => true
  | .nameAcquire _ _ => true
  | _ => false

/-- The world `W` in which opening the name store and acquiring a name succeed, every other
call as in `W`. -/
def World.nameStoreOk (W : World) : World :=
  { W with fails := fun c => if c.isNameAcquire then none else W.fails c }

/-- A runtime state with pid 4242 and the given annotations. -/
def stateOf (ann : Annotations) : State :=
  { ID := "c1", Pid := 4242, Bundle := "/b", Annotations := ann }

/-- The annotations of scenario S1: namespace, state directory and networks, nothing else. -/
def annotationsS1 : Annotations :=
  [(labels.Namespace, "default"), (labels.StateDir, "/run/s/c1"), (labels.Networks, "[\"none\"]")]

/-- The input state of scenario S1, with the bundle at the given path. -/
def stateS1 (bundle : String) : State :=
  { ID := "c1", Pid := 4242, Bundle := bundle, Annotations := annotationsS1 }

/-- The state of scenario S1 with an empty list of extra hosts added to its annotations. -/
def stateS1ExtraHosts (bundle : String) : State :=
  { ID := "c1", Pid := 4242, Bundle := bundle
    Annotations := annotationsS1 ++ [(labels.ExtraHosts, "[]")] }

/-- A world in which every call succeeds, not rootless, whose detector finds the type none for
the network list `none` and CNI for any other. -/
def hookWorld : World :=
  { quietWorld with detect := fun nets => if nets = ["none"] then .ok .None else .ok .CNI }

/-- The handler options `newHandlerOpts` builds in `hookWorld` from the state of scenario S1
with an empty list of extra hosts and the bundle `/b`. -/
def optsS1 : handlerOpts :=
  { state := stateS1ExtraHosts "/b"
    dataStore := "/data"
    rootfs := "/b/rootfs"
    ports := []
    cni := none
    cniNames := []
    fullID := "default-c1"
    rootlessKitClient := false
    bypassClient := false
    extraHosts := []
    containerIP := ""
    containerMAC := ""
    containerIP6 := "" }

/-! ## The pid file

`writePidFile` is embedded over a filesystem state: the nodes by absolute path, the directories
in which entries can be created and removed, what `os.Getwd` returns, the limits on the length
of names and paths, and whether the medium fails. -/

/-- The part of a path up to and with its last slash: the slice `path[:i+1]` of `filepath.Dir`. -/
def dirPart : List Char → List Char
  | [] => []
  | c :: cs => if '/' ∈ cs then c :: dirPart cs else if c = '/' then [c] else []

/-- The part of a path after its last slash: the slice `path[i+1:]` of `filepath.Base`. -/
def lastElem : List Char → List Char
  | [] => []
  | c :: cs => if '/' ∈ cs then lastElem cs else if c = '/' then cs else c :: cs

/-- A path without its trailing slashes. -/
def stripSlashes : List Char → List Char
  | [] => []
  | c :: cs =>
    match stripSlashes cs with
    | [] => if c = '/' then [] else [c]
    | r => c :: r

/-- Go `filepath.Dir`. -/
def filepathDir (path : String) : String :=
  filepathClean (String.mk (dirPart path.toList))

/-- Go `filepath.Base`. -/
def filepathBase (path : String) : String :=
  if path = "" then "."
  else if lastElem (stripSlashes path.toList) = [] then "/"
  else String.mk (lastElem (stripSlashes path.toList))

/-- The absolute form of a path for the working directory `wd`: what `filepath.Abs` yields when
`os.Getwd`, if it is called, returns `wd`. -/
def absWith (wd path : String) : String :=
  if filepathIsAbs path then filepathClean path else filepathJoin [wd, path]

/-- Go `filepath.Abs`, given what `os.Getwd` returns: an absolute path is cleaned, and any other
path is joined to the working directory, whose error is returned. -/
def filepathAbs (getwd : Except Err String) (path : String) : Except Err String :=
  if filepathIsAbs path then .ok (filepathClean path)
  else
    match getwd with
    | .error err => .error err
    | .ok wd => .ok (filepathJoin [wd, path])

/-- A node of the filesystem. -/
inductive Node where
  | file (content : String)
  | dir
  deriving DecidableEq, Repr

/-- A filesystem state, as one process sees it. Symbolic links are not part of the embedding. -/
structure FS where
  /-- The nodes, by absolute path. -/
  nodes : GoMap Node
  /-- The directories in which the process may create, rename and remove entries. -/
  writable : List String
  /-- What `os.Getwd` returns: the working directory of the process, or an error. -/
  cwd : Except Err String
  /-- The limit `NAME_MAX` on the bytes of one path element (255 on the usual filesystems). -/
  nameMax : Nat
  /-- The limit `PATH_MAX` on the bytes of a path, its final NUL counted (4096 on Linux). -/
  pathMax : Nat
  /-- The error of the medium, if it fails: no space left, quota, input/output error. -/
  ioError : Option Err
  deriving DecidableEq, Repr

/-- Remove a key from a map. -/
def GoMap.erase {V : Type} (m : GoMap V) (k : String) : GoMap V :=
  m.filter (fun e => !(e.1 == k))

/-- The number of bytes of the UTF-8 encoding of a text. -/
def utf8Len : List Char → Nat
  | [] => 0
  | c :: cs =>
    (if c.toNat < 0x80 then 1 else if c.toNat < 0x800 then 2
      else if c.toNat < 0x10000 then 3 else 4) + utf8Len cs

/-- The error a system call returns for a path as a name, if any: `EINVAL` when it holds a NUL
byte, `ENAMETOOLONG` when it has `PATH_MAX` bytes or more with the final NUL, or an element of
more than `NAME_MAX` bytes. -/
def pathNameError (nameMax pathMax : Nat) (path : String) : Option Err :=
  if Char.ofNat 0 ∈ path.toList then some (.ext "invalid argument")
  else if utf8Len path.toList + 1 > pathMax then some (.ext "file name too long")
  else if (splitSlash path.toList).any (fun e => utf8Len e > nameMax) then
    some (.ext "file name too long")
  else none

/-- Whether a path names a directory in which entries can be created and removed. -/
def FS.writableDir (fs : FS) (d : String) : Bool :=
  GoMap.get? fs.nodes d = some .dir && fs.writable.contains d

/-- The error that keeps a step from being tried at all: the failure of the medium, or a path
that is not admissible as a name. -/
def FS.stepError (fs : FS) (paths : List String) : Option Err :=
  match fs.ioError with
  | some err => some err
  | none => (paths.filterMap (pathNameError fs.nameMax fs.pathMax)).head?

/-- Go `os.OpenFile(path, os.O_RDWR|os.O_CREATE|os.O_EXCL|os.O_SYNC, 0666)`: it fails when the
medium fails, when the path is not admissible as a name, when the path exists, or when its
directory is not a writable directory, and else creates an empty file. -/
def FS.openExcl (fs : FS) (path : String) : Except Err FS :=
  match fs.stepError [path] with
  | some err => .error err
  | none =>
    if (GoMap.get? fs.nodes path).isSome then .error (.ext "file exists")
    else if !fs.writableDir (filepathDir path) then
      .error (.ext "no such directory or permission denied")
    else .ok { fs with nodes := GoMap.set fs.nodes path (.file "") }

/-- Go `fmt.Fprint(f, text)` on the file opened at `path`: it fails when the medium fails, and
else the text is written after the content. -/
def FS.write (fs : FS) (path text : String) : Except Err FS :=
  match fs.stepError [] with
  | some err => .error err
  | none =>
    match GoMap.get? fs.nodes path with
    | some (.file c) => .ok { fs with nodes := GoMap.set fs.nodes path (.file (c ++ text)) }
    | _ => .error (.ext "bad file descriptor")

/-- Go `os.Rename(oldpath, newpath)` for an old path that names a regular file: it fails when
the medium fails, when one of the paths is not admissible as a name, when the old path does not
exist, when the new path is a directory, or when one of the two directories is not a writable
directory; renaming a path to itself changes nothing; else the file takes the place of whatever
the new path named. Renaming a directory is not part of the embedding. -/
def FS.rename (fs : FS) (oldpath newpath : String) : Except Err FS :=
  match fs.stepError [oldpath, newpath] with
  | some err => .error err
  | none =>
    match GoMap.get? fs.nodes oldpath with
    | some (.file c) =>
      if GoMap.get? fs.nodes newpath = some .dir then .error (.ext "file exists")
      else if !fs.writableDir (filepathDir oldpath) || !fs.writableDir (filepathDir newpath) then
        .error (.ext "permission denied")
      else if oldpath = newpath then .ok fs
      else .ok { fs with nodes := GoMap.set (GoMap.erase fs.nodes oldpath) newpath (.file c) }
    | some .dir => .error (.ext "rename of a directory")
    | none => .error (.ext "no such file or directory")

/-- The function `writePidFile`: the filesystem it leaves and the error it returns. The error
of `fmt.Fprint` is looked at after `f.Close()`, which changes nothing here. -/
def writePidFile (fs : FS) (path : String) (pid : Int) : FS × Option Err :=
  match filepathAbs fs.cwd path with
  | .error err => (fs, some err)
  | .ok path =>
    let tempPath := filepathJoin [filepathDir path, "." ++ filepathBase path]
    match fs.openExcl tempPath with
    | .error err => (fs, some err)
    | .ok fs1 =>
      match fs1.write tempPath (toString pid) with
      | .error err => (fs1, some err)
      | .ok fs2 =>
        match fs2.rename tempPath path with
        | .error err => (fs2, some err)
        | .ok fs3 => (fs3, none)

/-- A filesystem with the given nodes, the writable directory `/run/s`, the working directory
`/run`, the limits of Linux and a medium that does not fail. -/
def fsWith (nodes : GoMap Node) : FS :=
  { nodes := nodes
    writable := ["/run/s"]
    cwd := .ok "/run"
    nameMax := 255
    pathMax := 4096
    ioError := none }

/-- A filesystem with the writable directory `/run/s` and nothing in it. -/
def fsEmptyRun : FS :=
  fsWith [("/", .dir), ("/run", .dir), ("/run/s", .dir)]

/-- A filesystem with the writable directory `/run/s` in which `/run/s/c1.pid` is a directory. -/
def fsPidIsDir : FS :=
  fsWith [("/", .dir), ("/run", .dir), ("/run/s", .dir), ("/run/s/c1.pid", .dir)]

/-- A path in `/run/s` whose last element has 255 bytes. -/
def longPidPath : String :=
  String.mk ("/run/s/".toList ++ List.replicate 255 'a')

/-- The text `/c1/c2/.../cn` of a list of path elements. -/
def joinSlash (comps : List (List Char)) : List Char :=
  comps.flatMap (fun c => '/' :: c)

/-- The text of a rooted path with the given elements: `/` alone when there is none. -/
def rootedChars (comps : List (List Char)) : List Char :=
  if comps = [] then ['/'] else joinSlash comps

/-- An element of a cleaned rooted path: not empty, not `.`, not `..`, without slash. -/
def NormalElem (e : List Char) : Prop :=
  e ≠ [] ∧ e ≠ ['.'] ∧ e ≠ ['.', '.'] ∧ '/' ∉ e

/-- A rootless world whose supervisor runs without port driver: its Info answer has the
network driver with the child IP `c` and a nil `PortDriver`. -/
def worldWithoutPortDriver (c : IP) : World :=
  { quietWorld with isRootlessChild := true, rlkInfo := .ok ⟨some ⟨c⟩, none⟩ }

/-! ## Theorems -/

/-! ### Go maps -/

theorem GoMap.get?_set {V : Type} (m : GoMap V) (k k' : String) (v : V) :
    GoMap.get? (GoMap.set m k v) k' = if k = k' then some v else GoMap.get? m k' := by
  unfold GoMap.get? GoMap.set
  by_cases h : k = k'
  · simp [h]
  · simp only [h, if_false]
    rw [List.find?_cons_of_neg _ (by simpa using h), List.find?_filter]
    congr 2
    funext e
    by_cases h2 : e.1 = k'
    · have h1 : ¬ e.1 = k := fun h1 => h (h1.symm.trans h2)
      simp [h2]
      exact fun h3 => h h3.symm
    · simp [h2]

theorem GoMap.keys_set_nodup {V : Type} (m : GoMap V) (k : String) (v : V)
    (h : (m.map Prod.fst).Nodup) : ((GoMap.set m k v).map Prod.fst).Nodup := by
  unfold GoMap.set
  rw [List.map_cons, List.nodup_cons]
  constructor
  · simp [List.mem_map, List.mem_filter]
  · exact (h.sublist (List.Sublist.map _ (List.filter_sublist _)))

/-! ### Extra hosts -/

theorem splitN2_eq (cs : List Char) :
    splitN2 cs = if cs.contains ':' then
      [cs.takeWhile (fun c => c ≠ ':'), (cs.dropWhile (fun c => c ≠ ':')).drop 1]
    else [cs] := by
  induction cs with
  | nil => simp [splitN2]
  | cons c t ih =>
    by_cases h : c = ':'
    · simp [splitN2, h]
    · have hc : ¬ ':' = c := fun h1 => h h1.symm
      rw [splitN2, if_neg h, ih]
      by_cases h2 : ':' ∈ t
      · simp [h2, h, hc, List.takeWhile_cons, List.dropWhile_cons]
      · simp [h2, h, hc]

theorem stringsSplitN2_eq (e : String) :
    stringsSplitN2 e = if hasColon e then [beforeColon e, afterColon e] else [e] := by
  unfold stringsSplitN2 hasColon beforeColon afterColon
  rw [splitN2_eq]
  split <;> simp

theorem extraHostsLoop_get? (l : List String) (m : GoMap String) (k : String) :
    GoMap.get? (extraHostsLoop l m) k = (lastBinding l k).or (GoMap.get? m k) := by
  induction l generalizing m with
  | nil => simp [extraHostsLoop, lastBinding]
  | cons e rest ih =>
    rw [extraHostsLoop, stringsSplitN2_eq]
    by_cases hc : hasColon e
    · simp only [hc, if_true]
      rw [ih, GoMap.get?_set]
      unfold lastBinding
      rw [List.reverse_cons, List.find?_append]
      by_cases hk : beforeColon e = k
      · simp [hc, hk, List.find?_cons]
        cases List.find? (fun e => hasColon e && beforeColon e == k) rest.reverse <;> simp
      · simp [hc, hk, List.find?_cons]
    · simp only [hc, Bool.false_eq_true, if_false]
      rw [ih]
      unfold lastBinding
      rw [List.reverse_cons, List.find?_append]
      simp [hc, List.find?_cons]

theorem extraHostsLoop_nodup (l : List String) (m : GoMap String)
    (h : (m.map Prod.fst).Nodup) : ((extraHostsLoop l m).map Prod.fst).Nodup := by
  induction l generalizing m with
  | nil => simpa [extraHostsLoop] using h
  | cons e rest ih =>
    rw [extraHostsLoop, stringsSplitN2_eq]
    by_cases hc : hasColon e
    · simp only [hc, if_true]
      exact ih _ (GoMap.keys_set_nodup m _ _ h)
    · simp only [hc, Bool.false_eq_true, if_false]
      exact ih _ h

/-- C8. When the extraHosts annotation decodes to the list `l`, `getExtraHosts` returns a map
without error; a hostname is bound in it exactly when some entry of `l` contains a colon and has
that hostname before its first colon, and its value is all the text after the first colon of
the last such entry; the map has no other keys and no key twice. -/
theorem getExtraHosts_lastBinding (st : State) (l : List String)
    (h : jsonUnmarshalStrings (st.Annotations.val labels.ExtraHosts) = .ok l) :
    ∃ hosts, getExtraHosts st = .ok hosts ∧
      (∀ k, GoMap.get? hosts k = lastBinding l k) ∧ (hosts.map Prod.fst).Nodup := by
  refine ⟨extraHostsLoop l [], ?_, ?_, ?_⟩
  · simp [getExtraHosts, h]
  · intro k
    rw [extraHostsLoop_get?]
    simp [GoMap.get?]
  · exact extraHostsLoop_nodup l [] (by simp)

/-- C8, at a list holding `h:::1`, an entry without colon and a second entry for `h`: the
entry without colon is dropped, `g` keeps its value and the last entry for `h` wins. -/
theorem getExtraHosts_lastBinding_witness :
    getExtraHosts stateExtraHosts = .ok [("h", "10.0.0.2"), ("g", "10.0.0.1")] ∧
    lastBinding ["h:::1", "bad"] "h" = some "::1" ∧
    ∃ hosts, getExtraHosts stateExtraHosts = .ok hosts ∧
      (∀ k, GoMap.get? hosts k =
        lastBinding ["h:::1", "bad", "g:10.0.0.1", "h:10.0.0.2"] k) ∧
      (hosts.map Prod.fst).Nodup :=
  ⟨by decide, by decide,
    getExtraHosts_lastBinding stateExtraHosts ["h:::1", "bad", "g:10.0.0.1", "h:10.0.0.2"]
      (by decide)⟩

/-! ### The port map -/

theorem portLoop_optsPorts (c : IP) (d : Bool) (n i : Nat) (m : PortMem) :
    (portLoop c d n i m).optsPorts = m.optsPorts := by
  induction n generalizing i m with
  | zero => rfl
  | succ n ih =>
    rw [portLoop]
    split
    · rw [ih]
    · rfl

theorem portLoop_length (c : IP) (d : Bool) (n i : Nat) (m : PortMem) :
    (portLoop c d n i m).ports.length = m.ports.length := by
  induction n generalizing i m with
  | zero => rfl
  | succ n ih =>
    rw [portLoop]
    split
    · rw [ih]; simp
    · rfl

theorem portLoop_getElem? (c : IP) (d : Bool) (n i : Nat) (m : PortMem) (j : Nat)
    (hlen : m.ports.length = m.optsPorts.length) (hn : i + n = m.optsPorts.length) :
    (portLoop c d n i m).ports[j]? =
      if i ≤ j then (m.optsPorts[j]?).map (rewriteHostIP c d) else m.ports[j]? := by
  induction n generalizing i m with
  | zero =>
    simp only [portLoop]
    split
    · rename_i h
      have h1 : m.optsPorts.length ≤ j := by omega
      have h2 : m.ports.length ≤ j := by omega
      rw [List.getElem?_eq_none h1, List.getElem?_eq_none h2]
      rfl
    · rfl
  | succ n ih =>
    have hi : i < m.optsPorts.length := by omega
    rw [portLoop, List.getElem?_eq_getElem hi]
    simp only
    rw [ih]
    · by_cases h1 : i + 1 ≤ j
      · have h2 : i ≤ j := by omega
        simp [h1, h2]
      · by_cases h3 : i = j
        · subst h3
          simp [List.getElem?_eq_getElem hi, hlen, hi]
        · have h2 : ¬ i ≤ j := by omega
          simp [h1, h2, List.getElem?_set, h3]
    · simpa using hlen
    · simp only; omega

theorem getPortMapOpts_rootless (W : World) (opts : handlerOpts)
    (hroot : W.isRootlessChild = true) (hne : opts.ports.length > 0) :
    getPortMapOpts W opts =
      ⟨[.rlkInfo], (readInfo W.rlkInfo).map fun r => (opts, [.capabilityPortMap
        (portLoop r.1 r.2 opts.ports.length 0
          ⟨opts.ports, List.replicate opts.ports.length PortMapping.zero⟩).ports])⟩ := by
  unfold getPortMapOpts
  simp only [hne, if_true, hroot, Bool.not_true, Bool.false_eq_true, if_false]
  cases hinfo : readInfo W.rlkInfo <;>
    simp [Eff.andThen, Eff.ret, hinfo, portLoop_optsPorts, Except.map]

theorem not_rootless_cases (W : World) (opts : handlerOpts)
    (h : ¬ (W.isRootlessChild = true ∧ opts.ports.length > 0)) :
    W.isRootlessChild = false ∨ opts.ports.length = 0 := by
  by_cases hr : W.isRootlessChild = true
  · exact Or.inr (Nat.eq_zero_of_not_pos (fun hp => h ⟨hr, hp⟩))
  · exact Or.inl (by simpa using hr)

theorem getPortMapOpts_not_rootless (W : World) (opts : handlerOpts)
    (h : W.isRootlessChild = false ∨ opts.ports.length = 0) :
    (getPortMapOpts W opts).trace = [] ∧
      ∃ nsOpts, (getPortMapOpts W opts).result = .ok (opts, nsOpts) := by
  unfold getPortMapOpts
  rcases h with h | h
  · split
    · simp [h, Eff.ret]
    · simp [Eff.ret]
  · simp [h, Eff.ret]

theorem rewriteHostIP_frame (c : IP) (d : Bool) (p : PortMapping) :
    (rewriteHostIP c d p).HostPort = p.HostPort ∧
    (rewriteHostIP c d p).ContainerPort = p.ContainerPort ∧
    (rewriteHostIP c d p).Protocol = p.Protocol := by
  unfold rewriteHostIP
  repeat' split
  all_goals exact ⟨rfl, rfl, rfl⟩

/-- C1 (amended). In rootless mode, when the supervisor reports the child IP `c` and the bit
`d`, the port that `getPortMapOpts` passes to CNI for the port `p` at index `i` of `opts.ports`
has the host IP: that of `p` when it does not parse, is unspecified, or is not loopback and
equals `c`; `127.0.0.1` when it is not loopback, differs from `c` and `d` is false; the text of
`c` when it is not loopback, differs from `c` and `d` is true; the text of `c` when it is
loopback and `d` is true, whether or not it equals `c`; and that of `p` when it is loopback and
`d` is false. -/
theorem getPortMapOpts_hostIP (W : World) (opts : handlerOpts) (c : IP) (d : Bool) (i : Nat)
    (p : PortMapping) (hroot : W.isRootlessChild = true)
    (hinfo : W.rlkInfo = .ok ⟨some ⟨c⟩, some ⟨d⟩⟩) (hp : opts.ports[i]? = some p) :
    ∃ ps q, (getPortMapOpts W opts).result = .ok (opts, [.capabilityPortMap ps]) ∧
      ps[i]? = some q ∧
      (ParseIP p.HostIP = none → q.HostIP = p.HostIP) ∧
      (∀ h, ParseIP p.HostIP = some h →
        (h.IsUnspecified = true → q.HostIP = p.HostIP) ∧
        (h.IsUnspecified = false → h.IsLoopback = false → (c ≠ [] ∧ c.Equal h = true) →
          q.HostIP = p.HostIP) ∧
        (h.IsUnspecified = false → h.IsLoopback = false → ¬ (c ≠ [] ∧ c.Equal h = true) →
          d = false → q.HostIP = "127.0.0.1") ∧
        (h.IsUnspecified = false → h.IsLoopback = false → ¬ (c ≠ [] ∧ c.Equal h = true) →
          d = true → q.HostIP = c.String) ∧
        (h.IsUnspecified = false → h.IsLoopback = true → d = true → q.HostIP = c.String) ∧
        (h.IsUnspecified = false → h.IsLoopback = true → d = false → q.HostIP = p.HostIP)) := by
  have hi : i < opts.ports.length := by
    rcases Nat.lt_or_ge i opts.ports.length with h | h
    · exact h
    · rw [List.getElem?_eq_none h] at hp; cases hp
  have hne : opts.ports.length > 0 := by omega
  refine ⟨(portLoop c d opts.ports.length 0
    ⟨opts.ports, List.replicate opts.ports.length PortMapping.zero⟩).ports,
    rewriteHostIP c d p, ?_, ?_, ?_, ?_⟩
  · rw [getPortMapOpts_rootless W opts hroot hne]
    simp [hinfo, readInfo, Except.map]
  · rw [portLoop_getElem? _ _ _ _ _ _ (by simp) (by simp)]
    simp [hp]
  · intro h0
    simp [rewriteHostIP, h0]
  · intro h h0
    refine ⟨?_, ?_, ?_, ?_, ?_, ?_⟩
    · intro h1; simp [rewriteHostIP, h0, h1]
    · intro h1 h2 h3; simp [rewriteHostIP, h0, h1, h2, h3]
    · intro h1 h2 h3 h4
      have h5 : (!decide (c = []) && c.Equal h) = false := by
        by_cases hc : c = []
        · simp [hc]
        · have : c.Equal h = false := by
            cases hb : c.Equal h
            · rfl
            · exact absurd ⟨hc, hb⟩ h3
          simp [this]
      simp [rewriteHostIP, h0, h1, h2, h4, h5]
    · intro h1 h2 h3 h4
      have h5 : (!decide (c = []) && c.Equal h) = false := by
        by_cases hc : c = []
        · simp [hc]
        · have : c.Equal h = false := by
            cases hb : c.Equal h
            · rfl
            · exact absurd ⟨hc, hb⟩ h3
          simp [this]
      simp [rewriteHostIP, h0, h1, h2, h4, h5]
    · intro h1 h2 h3; simp [rewriteHostIP, h0, h1, h2, h3]
    · intro h1 h2 h3; simp [rewriteHostIP, h0, h1, h2, h3]
/-- C1, at the port 10.0.0.5:8080 with child IP 10.4.0.1 and a driver that allows the loopback
child IP: CNI is given 127.0.0.1. -/
theorem getPortMapOpts_hostIP_witness :
    (getPortMapOpts (rootlessWorld (v4InV6Bytes ++ [10, 4, 0, 1]) false)
        (optsOf [⟨8080, 80, "tcp", "10.0.0.5"⟩] ["bridge"])).result =
      .ok (optsOf [⟨8080, 80, "tcp", "10.0.0.5"⟩] ["bridge"],
        [.capabilityPortMap [⟨8080, 80, "tcp", "127.0.0.1"⟩]]) ∧
    ∃ ps q, (getPortMapOpts (rootlessWorld (v4InV6Bytes ++ [10, 4, 0, 1]) false)
        (optsOf [⟨8080, 80, "tcp", "10.0.0.5"⟩] ["bridge"])).result =
        .ok (optsOf [⟨8080, 80, "tcp", "10.0.0.5"⟩] ["bridge"], [.capabilityPortMap ps]) ∧
      ps[0]? = some q ∧
      (ParseIP "10.0.0.5" = none → q.HostIP = "10.0.0.5") ∧
      (∀ h, ParseIP "10.0.0.5" = some h →
        (h.IsUnspecified = true → q.HostIP = "10.0.0.5") ∧
        (h.IsUnspecified = false → h.IsLoopback = false →
          ((v4InV6Bytes ++ [10, 4, 0, 1] : IP) ≠ [] ∧
            IP.Equal (v4InV6Bytes ++ [10, 4, 0, 1]) h = true) → q.HostIP = "10.0.0.5") ∧
        (h.IsUnspecified = false → h.IsLoopback = false →
          ¬ ((v4InV6Bytes ++ [10, 4, 0, 1] : IP) ≠ [] ∧
            IP.Equal (v4InV6Bytes ++ [10, 4, 0, 1]) h = true) →
          false = false → q.HostIP = "127.0.0.1") ∧
        (h.IsUnspecified = false → h.IsLoopback = false →
          ¬ ((v4InV6Bytes ++ [10, 4, 0, 1] : IP) ≠ [] ∧
            IP.Equal (v4InV6Bytes ++ [10, 4, 0, 1]) h = true) →
          false = true → q.HostIP = IP.String (v4InV6Bytes ++ [10, 4, 0, 1])) ∧
        (h.IsUnspecified = false → h.IsLoopback = true → false = true →
          q.HostIP = IP.String (v4InV6Bytes ++ [10, 4, 0, 1])) ∧
        (h.IsUnspecified = false → h.IsLoopback = true → false = false →
          q.HostIP = "10.0.0.5")) :=
  ⟨by decide,
    getPortMapOpts_hostIP (rootlessWorld (v4InV6Bytes ++ [10, 4, 0, 1]) false)
      (optsOf [⟨8080, 80, "tcp", "10.0.0.5"⟩] ["bridge"]) (v4InV6Bytes ++ [10, 4, 0, 1]) false 0
      ⟨8080, 80, "tcp", "10.0.0.5"⟩ rfl rfl rfl⟩

/-- C1 fails as stated: the host IP `0:0:0:0:0:0:0:1` parses, is loopback and equals the child
IP `::1`, yet with a driver that disallows the loopback child IP it is not passed unchanged:
CNI is given the text `::1` of the child IP. -/
theorem getPortMapOpts_hostIP_equal_childIP_rewritten :
    ParseIP "0:0:0:0:0:0:0:1" = some IPv6loopback ∧
    IP.IsUnspecified IPv6loopback = false ∧
    IP.Equal IPv6loopback IPv6loopback = true ∧
    (getPortMapOpts (rootlessWorld IPv6loopback true)
        (optsOf [⟨8080, 80, "tcp", "0:0:0:0:0:0:0:1"⟩] ["bridge"])).result =
      .ok (optsOf [⟨8080, 80, "tcp", "0:0:0:0:0:0:0:1"⟩] ["bridge"],
        [.capabilityPortMap [⟨8080, 80, "tcp", "::1"⟩]]) := by
  decide

/-! ### Traces -/

theorem Eff.forall_andThen {α β : Type} (P : Call → Prop) (m : Eff α) (f : α → Eff β)
    (h1 : ∀ c ∈ m.trace, P c) (h2 : ∀ a, m.result = .ok a → ∀ c ∈ (f a).trace, P c) :
    ∀ c ∈ (m.andThen f).trace, P c := by
  intro c hc
  unfold Eff.andThen at hc
  split at hc
  · exact h1 c hc
  · rename_i a ha
    rcases List.mem_append.mp hc with h | h
    · exact h1 c h
    · exact h2 a ha c h

theorem Eff.forall_mapErr {α : Type} (P : Call → Prop) (m : Eff α) (g : Err → Err)
    (h1 : ∀ c ∈ m.trace, P c) : ∀ c ∈ (m.mapErr g).trace, P c := by
  intro c hc
  unfold Eff.mapErr at hc
  split at hc <;> exact h1 c hc

theorem Eff.forall_query {α : Type} (P : Call → Prop) (W : World) (c0 : Call) (v : α)
    (h : P c0) : ∀ c ∈ (W.query c0 v).trace, P c := by
  intro c hc
  simp only [World.query, List.mem_singleton] at hc
  rw [hc]; exact h

theorem Eff.forall_exec (P : Call → Prop) (W : World) (c0 : Call)
    (h : P c0) : ∀ c ∈ (W.exec c0).trace, P c :=
  Eff.forall_query P W c0 () h

theorem getPortMapOpts_trace (W : World) (opts : handlerOpts) :
    ∀ c ∈ (getPortMapOpts W opts).trace, c = .rlkInfo := by
  intro c hc
  by_cases h : W.isRootlessChild = true ∧ opts.ports.length > 0
  · rw [getPortMapOpts_rootless W opts h.1 h.2] at hc
    simpa using hc
  · have h2 := not_rootless_cases W opts h
    rw [(getPortMapOpts_not_rootless W opts h2).1] at hc
    cases hc

theorem getNetNSPath_trace (W : World) (st : State) :
    ∀ c ∈ (getNetNSPath W st).trace, ∃ path, c = .stat path := by
  intro c hc
  unfold getNetNSPath at hc
  split at hc
  · simp only [World.query, List.mem_singleton] at hc; exact ⟨_, hc⟩
  · split at hc
    · simp [Eff.fail] at hc
    · simp only [World.query, List.mem_singleton] at hc; exact ⟨_, hc⟩

/-- The ports `getPortMapOpts` leaves in `opts` are those it found there. -/
theorem getPortMapOpts_fst (W : World) (opts : handlerOpts) (r : handlerOpts × List NamespaceOpt)
    (h : (getPortMapOpts W opts).result = .ok r) : r.1 = opts := by
  by_cases h1 : W.isRootlessChild = true ∧ opts.ports.length > 0
  · rw [getPortMapOpts_rootless W opts h1.1 h1.2] at h
    cases hinfo : readInfo W.rlkInfo with
    | error e => simp [hinfo, Except.map] at h
    | ok v =>
      simp only [hinfo, Except.map, Except.ok.injEq] at h
      rw [← h]
  · have h2 := not_rootless_cases W opts h1
    obtain ⟨nsOpts, h3⟩ := (getPortMapOpts_not_rootless W opts h2).2
    rw [h3] at h
    simp only [Except.ok.injEq] at h
    rw [← h]

/-- The only failure of `getPortMapOpts` is the panic on an Info answer that lacks the network
driver or the port driver. -/
theorem getPortMapOpts_error (W : World) (opts : handlerOpts) (e : Err)
    (h : (getPortMapOpts W opts).result = .error e) :
    e = .goPanic "nil pointer dereference" ∧
      ∃ info, W.rlkInfo = .ok info ∧ (info.NetworkDriver = none ∨ info.PortDriver = none) := by
  by_cases h1 : W.isRootlessChild = true ∧ opts.ports.length > 0
  · rw [getPortMapOpts_rootless W opts h1.1 h1.2] at h
    unfold readInfo at h
    cases hinfo : W.rlkInfo with
    | error e0 => simp [hinfo, Except.map] at h
    | ok info =>
      simp only [hinfo] at h
      cases hn : info.NetworkDriver with
      | none =>
        simp only [hn, Except.map, Except.error.injEq] at h
        exact ⟨h.symm, info, rfl, Or.inl hn⟩
      | some nd =>
        cases hpd : info.PortDriver with
        | none =>
          simp only [hn, hpd, Except.map, Except.error.injEq] at h
          exact ⟨h.symm, info, rfl, Or.inr hpd⟩
        | some pd => simp [hn, hpd, Except.map] at h
  · have h2 := not_rootless_cases W opts h1
    obtain ⟨nsOpts, h3⟩ := (getPortMapOpts_not_rootless W opts h2).2
    rw [h3] at h
    cases h

theorem startRootless_ports (W : World) (opts : handlerOpts) (b1 b2 : Bool) :
    ∀ c ∈ (startRootless W opts b1 b2).trace,
      (∀ ps id dir, c = .startBypass ps id dir → ps = opts.ports) ∧
      (∀ ps, c = .exposePorts ps → ps = opts.ports) := by
  unfold startRootless
  split
  · apply Eff.forall_andThen
    · split
      · apply Eff.forall_andThen
        · intro c hc
          unfold Eff.ofOption at hc
          split at hc <;> simp [Eff.fail, Eff.ret] at hc
        · intro _ _
          apply Eff.forall_mapErr
          apply Eff.forall_exec
          exact ⟨fun ps id dir h => (by cases h; rfl), fun ps h => (by cases h)⟩
      · intro c hc; simp [Eff.ret] at hc
    · intro _ _
      split
      · apply Eff.forall_mapErr
        apply Eff.forall_exec
        exact ⟨fun ps id dir h => (by cases h), fun ps h => (by cases h; rfl)⟩
      · intro c hc; simp [Eff.ret] at hc
  · intro c hc; simp [Eff.ret] at hc

/-- C2. In rootless and in non-rootless mode `getPortMapOpts` leaves `opts` as it found it, so
`opts.ports` keeps its length and every element; the only way it does not return is the panic
on an Info answer without network driver or port driver, which comes before the loop; and every
bypass start and every expose call that `applyNetworkSettings` makes afterwards carries exactly
`opts.ports`. -/
theorem getPortMapOpts_leaves_ports (W : World) (opts : handlerOpts) :
    (∀ r, (getPortMapOpts W opts).result = .ok r → r.1 = opts ∧ r.1.ports = opts.ports) ∧
    (∀ e, (getPortMapOpts W opts).result = .error e →
      ∃ info, W.rlkInfo = .ok info ∧ (info.NetworkDriver = none ∨ info.PortDriver = none)) ∧
    ∀ c ∈ (applyNetworkSettings W opts).trace,
      (∀ ps id dir, c = .startBypass ps id dir → ps = opts.ports) ∧
      (∀ ps, c = .exposePorts ps → ps = opts.ports) := by
  refine ⟨?_, ?_, ?_⟩
  · intro r hr
    have := getPortMapOpts_fst W opts r hr
    exact ⟨this, by rw [this]⟩
  · intro e he
    exact (getPortMapOpts_error W opts e he).2
  · unfold applyNetworkSettings
    apply Eff.forall_andThen
    · intro c hc
      rw [getPortMapOpts_trace W opts c hc]
      exact ⟨fun ps id dir h => (by cases h), fun ps h => (by cases h)⟩
    · intro r hr
      have hopts := getPortMapOpts_fst W opts r hr
      simp only
      rw [hopts]
      apply Eff.forall_andThen
      · intro c hc
        obtain ⟨path, hpath⟩ := getNetNSPath_trace W _ c hc
        rw [hpath]
        exact ⟨fun ps id dir h => (by cases h), fun ps h => (by cases h)⟩
      · intro nsPath _
        apply Eff.forall_andThen
        · apply Eff.forall_exec
          exact ⟨fun ps id dir h => (by cases h), fun ps h => (by cases h)⟩
        · intro _ _
          split
          · intro c hc; simp [Eff.fail] at hc
          · apply Eff.forall_andThen
            · apply Eff.forall_mapErr
              apply Eff.forall_query
              exact ⟨fun ps id dir h => (by cases h), fun ps h => (by cases h)⟩
            · intro raw _
              apply Eff.forall_andThen
              · intro c hc; simp [Eff.ofExcept] at hc
              · intro nets _
                apply Eff.forall_andThen
                · intro c hc; simp [Eff.ofExcept] at hc
                · intro b _
                  apply Eff.forall_andThen
                  · apply Eff.forall_exec
                    exact ⟨fun ps id dir h => (by cases h), fun ps h => (by cases h)⟩
                  · intro _ _
                    exact startRootless_ports W opts b.1 b.2

/-- C2, in a rootless world with the bypass enabled (scenario S3): CNI is given the rewritten
host IP 127.0.0.1, the bypass start and the expose call are given the port as decoded, with
host IP 10.0.0.5. -/
theorem getPortMapOpts_leaves_ports_witness :
    (applyNetworkSettings (bypassWorld (v4InV6Bytes ++ [10, 4, 0, 1]) false)
        (optsOf [⟨8080, 80, "tcp", "10.0.0.5"⟩] ["bridge"])).trace =
      [.rlkInfo, .stat "/proc/4242/ns/net", .hostsNewStore "/data",
        .cniSetup "default-c1" "/proc/4242/ns/net"
          [.capabilityPortMap [⟨8080, 80, "tcp", "127.0.0.1"⟩],
            .labels [("IgnoreUnknown", "1")], .args "NERDCTL_CNI_DHCP_HOSTNAME" ""],
        .hostsAcquire ⟨"default", "c1", [("bridge", 7)], "", [], "web"⟩,
        .startBypass [⟨8080, 80, "tcp", "10.0.0.5"⟩] "c1" "/run/s/c1",
        .exposePorts [⟨8080, 80, "tcp", "10.0.0.5"⟩]] ∧
    (getPortMapOpts (bypassWorld (v4InV6Bytes ++ [10, 4, 0, 1]) false)
        (optsOf [⟨8080, 80, "tcp", "10.0.0.5"⟩] ["bridge"])).result =
      .ok (optsOf [⟨8080, 80, "tcp", "10.0.0.5"⟩] ["bridge"],
        [.capabilityPortMap [⟨8080, 80, "tcp", "127.0.0.1"⟩]]) ∧
    (∀ r, (getPortMapOpts (bypassWorld (v4InV6Bytes ++ [10, 4, 0, 1]) false)
        (optsOf [⟨8080, 80, "tcp", "10.0.0.5"⟩] ["bridge"])).result = .ok r →
        r.1 = optsOf [⟨8080, 80, "tcp", "10.0.0.5"⟩] ["bridge"] ∧
        r.1.ports = (optsOf [⟨8080, 80, "tcp", "10.0.0.5"⟩] ["bridge"]).ports) ∧
    ∀ c ∈ (applyNetworkSettings (bypassWorld (v4InV6Bytes ++ [10, 4, 0, 1]) false)
        (optsOf [⟨8080, 80, "tcp", "10.0.0.5"⟩] ["bridge"])).trace,
      (∀ ps id dir, c = .startBypass ps id dir →
        ps = (optsOf [⟨8080, 80, "tcp", "10.0.0.5"⟩] ["bridge"]).ports) ∧
      (∀ ps, c = .exposePorts ps →
        ps = (optsOf [⟨8080, 80, "tcp", "10.0.0.5"⟩] ["bridge"]).ports) :=
  ⟨by decide, by decide,
    (getPortMapOpts_leaves_ports (bypassWorld (v4InV6Bytes ++ [10, 4, 0, 1]) false)
      (optsOf [⟨8080, 80, "tcp", "10.0.0.5"⟩] ["bridge"])).1,
    (getPortMapOpts_leaves_ports (bypassWorld (v4InV6Bytes ++ [10, 4, 0, 1]) false)
      (optsOf [⟨8080, 80, "tcp", "10.0.0.5"⟩] ["bridge"])).2.2⟩

theorem startRootless_calls (W : World) (opts : handlerOpts) (b1 b2 : Bool) :
    ∀ c ∈ (startRootless W opts b1 b2).trace,
      (∃ id dir, c = .startBypass opts.ports id dir) ∨ c = .exposePorts opts.ports := by
  unfold startRootless
  split
  · apply Eff.forall_andThen
    · split
      · apply Eff.forall_andThen
        · intro c hc
          unfold Eff.ofOption at hc
          split at hc <;> simp [Eff.fail, Eff.ret] at hc
        · intro _ _
          apply Eff.forall_mapErr
          apply Eff.forall_exec
          exact Or.inl ⟨_, _, rfl⟩
      · intro c hc; simp [Eff.ret] at hc
    · intro _ _
      split
      · apply Eff.forall_mapErr
        apply Eff.forall_exec
        exact Or.inr rfl
      · intro c hc; simp [Eff.ret] at hc
  · intro c hc; simp [Eff.ret] at hc

/-! ### The networks of the hosts-store meta -/

theorem networksLoop_get?_of_not_mem (names : List String) (i : Nat) (raw : List CniResult)
    (nets res : GoMap CniResult) (name : String)
    (h : networksLoop names i raw nets = .ok res) (hn : name ∉ names) :
    GoMap.get? res name = GoMap.get? nets name := by
  induction names generalizing i nets with
  | nil =>
    simp only [networksLoop, Except.ok.injEq] at h
    rw [h]
  | cons n rest ih =>
    rw [networksLoop] at h
    split at h
    · rw [ih _ _ h (fun hm => hn (List.mem_cons_of_mem _ hm)), GoMap.get?_set]
      have : ¬ n = name := fun h1 => hn (by rw [h1]; exact List.mem_cons_self _ _)
      simp [this]
    · cases h

theorem networksLoop_get? (names : List String) (i : Nat) (raw : List CniResult)
    (nets res : GoMap CniResult) (h : networksLoop names i raw nets = .ok res)
    (j : Nat) (name : String) (hj : names[j]? = some name)
    (hlast : name ∉ names.drop (j + 1)) :
    GoMap.get? res name = raw[i + j]? ∧ i + j < raw.length := by
  induction names generalizing i nets j with
  | nil => simp at hj
  | cons n rest ih =>
    rw [networksLoop] at h
    split at h
    · rename_i r hr
      cases j with
      | zero =>
        simp only [List.getElem?_cons_zero, Option.some.injEq] at hj
        subst hj
        simp only [Nat.zero_add, List.drop_succ_cons, List.drop_zero] at hlast
        rw [networksLoop_get?_of_not_mem _ _ _ _ _ _ h hlast, GoMap.get?_set]
        simp only [if_true, Nat.add_zero]
        refine ⟨hr.symm, ?_⟩
        rcases Nat.lt_or_ge i raw.length with h1 | h1
        · exact h1
        · rw [List.getElem?_eq_none h1] at hr; cases hr
      | succ j =>
        simp only [List.getElem?_cons_succ] at hj
        simp only [List.drop_succ_cons] at hlast
        have := ih (i + 1) _ h j hj hlast
        have e : i + 1 + j = i + (j + 1) := by omega
        rw [e] at this
        exact this
    · cases h

/-- C3 (amended). When the CNI setup returns the array `cniResult` and `applyNetworkSettings`
gets as far as acquiring the hosts-store entry with the meta `m`, then for every index `i` of
`cniNames` whose name does not occur again at a later index (so for every index when the names
are distinct) `cniResult[i]` exists and `m.Networks[cniNames[i]]` is `cniResult[i]`. -/
theorem applyNetworkSettings_networks (W : World) (opts : handlerOpts)
    (cniResult : List CniResult)
    (hraw : ∀ fullID nsPath nsOpts, W.cniSetupRaw fullID nsPath nsOpts = cniResult)
    (m : Meta) (hm : Call.hostsAcquire m ∈ (applyNetworkSettings W opts).trace)
    (i : Nat) (name : String) (hi : opts.cniNames[i]? = some name)
    (hlast : name ∉ opts.cniNames.drop (i + 1)) :
    GoMap.get? m.Networks name = cniResult[i]? ∧ i < cniResult.length := by
  revert m
  suffices hs : ∀ c ∈ (applyNetworkSettings W opts).trace, ∀ m, c = Call.hostsAcquire m →
      (GoMap.get? m.Networks name = cniResult[i]? ∧ i < cniResult.length) from
    fun m hm => hs _ hm m rfl
  unfold applyNetworkSettings
  apply Eff.forall_andThen
  · intro c hc
    rw [getPortMapOpts_trace W opts c hc]
    intro m h; cases h
  · intro r hr
    have hopts := getPortMapOpts_fst W opts r hr
    simp only
    rw [hopts]
    apply Eff.forall_andThen
    · intro c hc
      obtain ⟨path, hpath⟩ := getNetNSPath_trace W _ c hc
      rw [hpath]
      intro m h; cases h
    · intro nsPath _
      apply Eff.forall_andThen
      · apply Eff.forall_exec
        intro m h; cases h
      · intro _ _
        split
        · intro c hc; simp [Eff.fail] at hc
        · apply Eff.forall_andThen
          · apply Eff.forall_mapErr
            apply Eff.forall_query
            intro m h; cases h
          · intro raw hrawres
            have hr2 : raw = cniResult := by
              unfold Eff.mapErr World.query at hrawres
              simp only at hrawres
              split at hrawres
              · cases hrawres
              · rename_i a ha
                simp only [Except.ok.injEq] at hrawres
                split at ha
                · cases ha
                · simp only [Except.ok.injEq] at ha
                  rw [← hrawres, ← ha, hraw]
            subst hr2
            apply Eff.forall_andThen
            · intro c hc; simp [Eff.ofExcept] at hc
            · intro nets hnets
              simp only [Eff.ofExcept] at hnets
              apply Eff.forall_andThen
              · intro c hc; simp [Eff.ofExcept] at hc
              · intro b _
                apply Eff.forall_andThen
                · apply Eff.forall_exec
                  intro m h
                  cases h
                  have := networksLoop_get? _ _ _ _ _ hnets i name hi hlast
                  simpa using this
                · intro _ _ c hc m h
                  subst h
                  rcases startRootless_calls W opts b.1 b.2 _ hc with ⟨id, dir, h⟩ | h <;> cases h

/-- C3, at the networks br0, br1, br2 with the results 5, 6, 7. -/
theorem applyNetworkSettings_networks_witness :
    (applyNetworkSettings (cniWorld [5, 6, 7]) (optsOf [] ["br0", "br1", "br2"])).trace =
      [.stat "/proc/4242/ns/net", .hostsNewStore "/data",
        .cniSetup "default-c1" "/proc/4242/ns/net"
          [.labels [("IgnoreUnknown", "1")], .args "NERDCTL_CNI_DHCP_HOSTNAME" ""],
        .hostsAcquire ⟨"default", "c1", [("br2", 7), ("br1", 6), ("br0", 5)], "", [], "web"⟩] ∧
    (GoMap.get? [("br2", 7), ("br1", 6), ("br0", 5)] "br1" = ([5, 6, 7] : List CniResult)[1]? ∧
      1 < ([5, 6, 7] : List CniResult).length) :=
  ⟨by decide,
    applyNetworkSettings_networks (cniWorld [5, 6, 7]) (optsOf [] ["br0", "br1", "br2"])
      [5, 6, 7] (fun _ _ _ => rfl)
      ⟨"default", "c1", [("br2", 7), ("br1", 6), ("br0", 5)], "", [], "web"⟩ (by decide)
      1 "br1" (by decide) (by decide)⟩

/-- C3 fails as stated: with the network list br0, br0 and the results 1, 2 the meta maps br0
to the result 2, so `Networks[cniNames[0]]` is not `cniResult[0]`. -/
theorem applyNetworkSettings_networks_repeated_name :
    (applyNetworkSettings (cniWorld [1, 2]) (optsOf [] ["br0", "br0"])).trace =
      [.stat "/proc/4242/ns/net", .hostsNewStore "/data",
        .cniSetup "default-c1" "/proc/4242/ns/net"
          [.labels [("IgnoreUnknown", "1")], .args "NERDCTL_CNI_DHCP_HOSTNAME" ""],
        .hostsAcquire ⟨"default", "c1", [("br0", 2)], "", [], "web"⟩] ∧
    (applyNetworkSettings (cniWorld [1, 2]) (optsOf [] ["br0", "br0"])).result = .ok () ∧
    (optsOf [] ["br0", "br0"]).cniNames[0]? = some "br0" ∧
    GoMap.get? [("br0", 2)] "br0" ≠ ([1, 2] : List CniResult)[0]? := by
  decide

/-! ### The teardown -/

theorem portLoop_eq_map (c : IP) (d : Bool) (l : List PortMapping) :
    (portLoop c d l.length 0 ⟨l, List.replicate l.length PortMapping.zero⟩).ports =
      l.map (rewriteHostIP c d) := by
  apply List.ext_getElem?
  intro j
  rw [portLoop_getElem? _ _ _ _ _ _ (by simp) (by simp)]
  simp

/-- C5 (amended). In a rootless child with a CNI handle, bypass enabled, bypass-bind not
enabled and a non-empty port list, when every call succeeds and the supervisor reports the
child IP `c` and the bit `d`, the calls `onPostStop` makes are, in this order and each once:
bypass stop, supervisor unexpose (with `opts.ports`), supervisor Info (made by `getPortMapOpts`
while the namespace options are computed again), CNI remove (with `fullID`, an empty namespace
path and the rewritten port list), hosts-store open, hosts-store release (namespace, ID),
name-store open, name-store release (name, ID); and `onPostStop` returns no error. -/
theorem onPostStop_calls (W : World) (opts : handlerOpts) (handle : CNIHandle) (c : IP)
    (d : Bool) (hroot : W.isRootlessChild = true) (hcni : opts.cni = some handle)
    (hb : W.isBypass4netnsEnabled opts.state.Annotations = .ok (true, false))
    (hports : opts.ports ≠ [])
    (hmgr : W.newBypassManager opts.bypassClient opts.rootlessKitClient
      opts.state.Annotations = none)
    (hinfo : W.rlkInfo = .ok ⟨some ⟨c⟩, some ⟨d⟩⟩) (hok : ∀ call, W.fails call = none) :
    (onPostStop W opts).trace =
      [.stopBypass opts.state.ID,
       .unexposePorts opts.ports,
       .rlkInfo,
       .cniRemove opts.fullID ""
         (.capabilityPortMap (opts.ports.map (rewriteHostIP c d)) :: (getIPAddressOpts opts ++
           getMACAddressOpts opts ++ getIP6AddressOpts opts)),
       .hostsNewStore opts.dataStore,
       .hostsRelease (opts.state.Annotations.val labels.Namespace) opts.state.ID,
       .nameNew opts.dataStore (opts.state.Annotations.val labels.Namespace),
       .nameRelease (opts.state.Annotations.val labels.Name) opts.state.ID] ∧
    (onPostStop W opts).result = .ok () := by
  have hne : opts.ports.length > 0 := List.length_pos.mpr hports
  unfold onPostStop postStopNetwork stopRootless
  rw [getPortMapOpts_rootless W opts hroot hne]
  simp [hroot, hcni, hb, hmgr, hinfo, hok, hne, hports, Eff.andThen, Eff.mapErr, World.exec,
    World.query, Eff.ofExcept, Eff.ofOption, Eff.ret, readInfo, Except.map, portLoop_eq_map]

/-- C5, with one published port, child IP 10.4.0.1 and a driver that allows the loopback
child IP. -/
theorem onPostStop_calls_witness :
    (onPostStop (bypassWorld (v4InV6Bytes ++ [10, 4, 0, 1]) false)
        (optsOf [⟨8080, 80, "tcp", "10.0.0.5"⟩] ["bridge"])).trace =
      [.stopBypass "c1",
       .unexposePorts [⟨8080, 80, "tcp", "10.0.0.5"⟩],
       .rlkInfo,
       .cniRemove "default-c1" "" [.capabilityPortMap [⟨8080, 80, "tcp", "127.0.0.1"⟩]],
       .hostsNewStore "/data",
       .hostsRelease "default" "c1",
       .nameNew "/data" "default",
       .nameRelease "web" "c1"] ∧
    (onPostStop (bypassWorld (v4InV6Bytes ++ [10, 4, 0, 1]) false)
        (optsOf [⟨8080, 80, "tcp", "10.0.0.5"⟩] ["bridge"])).result = .ok () :=
  onPostStop_calls (bypassWorld (v4InV6Bytes ++ [10, 4, 0, 1]) false)
    (optsOf [⟨8080, 80, "tcp", "10.0.0.5"⟩] ["bridge"]) ⟨"/opt/cni/bin", ["bridge"]⟩
    (v4InV6Bytes ++ [10, 4, 0, 1]) false rfl rfl rfl (by decide) rfl rfl (fun _ => rfl)

/-- C5 fails as stated: in a rootless child with CNI handle, bypass enabled, bypass-bind not
enabled and one published port, with every call succeeding, the calls of `onPostStop` are not
just bypass stop, unexpose, CNI remove, hosts-store release and name-store release: between
the unexpose and the CNI remove the supervisor is asked for its Info. -/
theorem onPostStop_calls_include_info :
    Call.rlkInfo ∈ (onPostStop (bypassWorld (v4InV6Bytes ++ [10, 4, 0, 1]) false)
        (optsOf [⟨8080, 80, "tcp", "10.0.0.5"⟩] ["bridge"])).trace ∧
    (onPostStop (bypassWorld (v4InV6Bytes ++ [10, 4, 0, 1]) false)
        (optsOf [⟨8080, 80, "tcp", "10.0.0.5"⟩] ["bridge"])).result = .ok () ∧
    ∀ nsOpts, (onPostStop (bypassWorld (v4InV6Bytes ++ [10, 4, 0, 1]) false)
        (optsOf [⟨8080, 80, "tcp", "10.0.0.5"⟩] ["bridge"])).trace ≠
      [.stopBypass "c1",
       .unexposePorts [⟨8080, 80, "tcp", "10.0.0.5"⟩],
       .cniRemove "default-c1" "" nsOpts,
       .hostsRelease "default" "c1",
       .nameRelease "web" "c1"] := by
  refine ⟨by decide, by decide, ?_⟩
  intro nsOpts h
  have hlen := congrArg List.length h
  simp only [List.length_cons, List.length_nil] at hlen
  revert hlen
  decide

theorem StopsAtFailure.of_nil (W : World) {α : Type} (m : Eff α) (h : m.trace = []) :
    StopsAtFailure W m := by
  intro c hc
  rw [h] at hc
  cases hc

theorem StopsAtFailure.andThen (W : World) {α β : Type} (m : Eff α) (f : α → Eff β)
    (h1 : StopsAtFailure W m) (h2 : ∀ a, m.result = .ok a → StopsAtFailure W (f a)) :
    StopsAtFailure W (m.andThen f) := by
  intro c hc hinfo e he
  unfold Eff.andThen at hc ⊢
  cases hr : m.result with
  | error e0 =>
    simp only [hr] at hc ⊢
    have h3 := h1 c hc hinfo e he
    rw [hr] at h3
    refine ⟨h3.1, ?_⟩
    have h4 := h3.2
    simp only [Except.error.injEq] at h4
    rw [h4]
  | ok a =>
    simp only [hr] at hc ⊢
    rcases List.mem_append.mp hc with h | h
    · have := (h1 c h hinfo e he).2
      rw [hr] at this
      cases this
    · have h3 := h2 a hr c h hinfo e he
      refine ⟨?_, h3.2⟩
      have hne : (f a).trace ≠ [] := List.ne_nil_of_mem h
      rw [List.getLast?_append_of_ne_nil _ hne]
      exact h3.1

theorem StopsAtFailure.exec (W : World) (c0 : Call) (h0 : ∀ e, postStopError c0 e = e) :
    StopsAtFailure W (W.exec c0) := by
  intro c hc _ e he
  simp only [World.exec, World.query, List.mem_singleton] at hc ⊢
  subst hc
  simp [he, h0]

theorem StopsAtFailure.exec_wrap (W : World) (c0 : Call) (msg : String)
    (h0 : ∀ e, postStopError c0 e = .wrap msg e) :
    StopsAtFailure W ((W.exec c0).mapErr (.wrap msg)) := by
  intro c hc _ e he
  simp only [World.exec, World.query, Eff.mapErr] at hc ⊢
  cases hf : W.fails c0 with
  | none =>
    simp only [hf, List.mem_singleton] at hc
    subst hc
    rw [hf] at he; cases he
  | some e0 =>
    simp only [hf, List.mem_singleton] at hc ⊢
    subst hc
    rw [hf] at he
    cases he
    exact ⟨rfl, by rw [h0]⟩

theorem StopsAtFailure.getPortMapOpts (W : World) (opts : handlerOpts) :
    StopsAtFailure W (getPortMapOpts W opts) := by
  intro c hc hinfo
  exact absurd (getPortMapOpts_trace W opts c hc) hinfo

theorem StopsAtFailure.stopRootless (W : World) (opts : handlerOpts) (b1 b2 : Bool) :
    StopsAtFailure W (stopRootless W opts b1 b2) := by
  unfold Ocihook.stopRootless
  split
  · apply StopsAtFailure.andThen
    · split
      · apply StopsAtFailure.andThen
        · apply StopsAtFailure.of_nil
          unfold Eff.ofOption
          split <;> rfl
        · intro _ _
          exact StopsAtFailure.exec W _ (fun _ => rfl)
      · exact StopsAtFailure.of_nil W _ rfl
    · intro _ _
      split
      · exact StopsAtFailure.exec_wrap W _ _ (fun _ => rfl)
      · exact StopsAtFailure.of_nil W _ rfl
  · exact StopsAtFailure.of_nil W _ rfl

theorem StopsAtFailure.onPostStop (W : World) (opts : handlerOpts) :
    StopsAtFailure W (onPostStop W opts) := by
  unfold Ocihook.onPostStop
  apply StopsAtFailure.andThen
  · split
    · unfold postStopNetwork
      apply StopsAtFailure.andThen
      · exact StopsAtFailure.of_nil W _ rfl
      · intro b _
        apply StopsAtFailure.andThen
        · exact StopsAtFailure.stopRootless W opts b.1 b.2
        · intro _ _
          apply StopsAtFailure.andThen
          · exact StopsAtFailure.getPortMapOpts W opts
          · intro r _
            apply StopsAtFailure.andThen
            · exact StopsAtFailure.exec W _ (fun _ => rfl)
            · intro _ _
              apply StopsAtFailure.andThen
              · exact StopsAtFailure.exec W _ (fun _ => rfl)
              · intro _ _
                exact StopsAtFailure.exec W _ (fun _ => rfl)
    · exact StopsAtFailure.of_nil W _ rfl
  · intro _ _
    apply StopsAtFailure.andThen
    · exact StopsAtFailure.exec W _ (fun _ => rfl)
    · intro _ _
      exact StopsAtFailure.exec_wrap W _ _ (fun _ => rfl)

/-- C4 (amended). `onPostStop` stops at the first teardown step that fails: when a call it makes
(bypass stop, port unexpose, CNI remove, hosts-store open or release, name-store open or
release) fails with the error `e`, that call is the last call `onPostStop` makes, so no later
step is invoked, and the error returned is that of this first and only failure: `e` itself for
the bypass stop, the CNI remove, the hosts-store calls and the name-store open, `e` wrapped
once as `failed to unexpose ports in rootless mode` for the unexpose, and `e` wrapped once as
`failed to release container name <name>` for the name release. -/
theorem onPostStop_stops_at_first_failure (W : World) (opts : handlerOpts) (c : Call) (e : Err)
    (hc : c ∈ (onPostStop W opts).trace) (hinfo : c ≠ .rlkInfo) (he : W.fails c = some e) :
    (onPostStop W opts).trace.getLast? = some c ∧
    (onPostStop W opts).result = .error (postStopError c e) ∧
    (∀ ps, c = .unexposePorts ps → (onPostStop W opts).result =
      .error (.wrap "failed to unexpose ports in rootless mode" e)) ∧
    (∀ name id, c = .nameRelease name id → (onPostStop W opts).result =
      .error (.wrap ("failed to release container name " ++ name) e)) ∧
    ((∀ ps, c ≠ .unexposePorts ps) → (∀ name id, c ≠ .nameRelease name id) →
      (onPostStop W opts).result = .error e) := by
  obtain ⟨h1, h2⟩ := StopsAtFailure.onPostStop W opts c hc hinfo e he
  refine ⟨h1, h2, ?_, ?_, ?_⟩
  · intro ps hps
    rw [h2, hps]
    rfl
  · intro name id hn
    rw [h2, hn]
    rfl
  · intro hu hn
    rw [h2]
    cases c <;> first | rfl | exact absurd rfl (hu _) | exact absurd rfl (hn _ _)

/-- C4, in a world whose CNI remove fails and in one whose unexpose fails: the trace ends with
the failed call; the error of the CNI remove is returned as it is, that of the unexpose
wrapped. -/
theorem onPostStop_stops_at_first_failure_witness :
    (onPostStop ((bypassWorld (v4InV6Bytes ++ [10, 4, 0, 1]) false).failingAt
        (.cniRemove "default-c1" "" [.capabilityPortMap [⟨8080, 80, "tcp", "127.0.0.1"⟩]])
        (.ext "plugin failed"))
      (optsOf [⟨8080, 80, "tcp", "10.0.0.5"⟩] ["bridge"])).trace =
      [.stopBypass "c1", .unexposePorts [⟨8080, 80, "tcp", "10.0.0.5"⟩], .rlkInfo,
        .cniRemove "default-c1" "" [.capabilityPortMap [⟨8080, 80, "tcp", "127.0.0.1"⟩]]] ∧
    (onPostStop ((bypassWorld (v4InV6Bytes ++ [10, 4, 0, 1]) false).failingAt
        (.cniRemove "default-c1" "" [.capabilityPortMap [⟨8080, 80, "tcp", "127.0.0.1"⟩]])
        (.ext "plugin failed"))
      (optsOf [⟨8080, 80, "tcp", "10.0.0.5"⟩] ["bridge"])).result =
      .error (.ext "plugin failed") ∧
    (onPostStop ((bypassWorld (v4InV6Bytes ++ [10, 4, 0, 1]) false).failingAt
        (.unexposePorts [⟨8080, 80, "tcp", "10.0.0.5"⟩]) (.ext "no such port"))
      (optsOf [⟨8080, 80, "tcp", "10.0.0.5"⟩] ["bridge"])).trace.getLast? =
      some (.unexposePorts [⟨8080, 80, "tcp", "10.0.0.5"⟩]) ∧
    (onPostStop ((bypassWorld (v4InV6Bytes ++ [10, 4, 0, 1]) false).failingAt
        (.unexposePorts [⟨8080, 80, "tcp", "10.0.0.5"⟩]) (.ext "no such port"))
      (optsOf [⟨8080, 80, "tcp", "10.0.0.5"⟩] ["bridge"])).result =
      .error (.wrap "failed to unexpose ports in rootless mode" (.ext "no such port")) :=
  ⟨by decide,
    (onPostStop_stops_at_first_failure _ _
      (.cniRemove "default-c1" "" [.capabilityPortMap [⟨8080, 80, "tcp", "127.0.0.1"⟩]])
      (.ext "plugin failed") (by decide) (by decide) (by decide)).2.1,
    (onPostStop_stops_at_first_failure
      ((bypassWorld (v4InV6Bytes ++ [10, 4, 0, 1]) false).failingAt
        (.unexposePorts [⟨8080, 80, "tcp", "10.0.0.5"⟩]) (.ext "no such port"))
      (optsOf [⟨8080, 80, "tcp", "10.0.0.5"⟩] ["bridge"])
      (.unexposePorts [⟨8080, 80, "tcp", "10.0.0.5"⟩])
      (.ext "no such port") (by decide) (by decide) (by decide)).1,
    (onPostStop_stops_at_first_failure
      ((bypassWorld (v4InV6Bytes ++ [10, 4, 0, 1]) false).failingAt
        (.unexposePorts [⟨8080, 80, "tcp", "10.0.0.5"⟩]) (.ext "no such port"))
      (optsOf [⟨8080, 80, "tcp", "10.0.0.5"⟩] ["bridge"])
      (.unexposePorts [⟨8080, 80, "tcp", "10.0.0.5"⟩])
      (.ext "no such port") (by decide) (by decide) (by decide)).2.2.1 _ rfl⟩

/-- C4 fails as stated: when the bypass stop fails, `onPostStop` returns its error at once; the
CNI remove, the hosts-store release and the name-store release are not invoked. -/
theorem onPostStop_bypass_stop_failure_ends_teardown :
    (onPostStop ((bypassWorld (v4InV6Bytes ++ [10, 4, 0, 1]) false).failingAt
        (.stopBypass "c1") (.ext "bypass4netnsd unreachable"))
      (optsOf [⟨8080, 80, "tcp", "10.0.0.5"⟩] ["bridge"])).trace = [.stopBypass "c1"] ∧
    (onPostStop ((bypassWorld (v4InV6Bytes ++ [10, 4, 0, 1]) false).failingAt
        (.stopBypass "c1") (.ext "bypass4netnsd unreachable"))
      (optsOf [⟨8080, 80, "tcp", "10.0.0.5"⟩] ["bridge"])).result =
      .error (.ext "bypass4netnsd unreachable") ∧
    Call.hostsRelease "default" "c1" ∉
      (onPostStop ((bypassWorld (v4InV6Bytes ++ [10, 4, 0, 1]) false).failingAt
        (.stopBypass "c1") (.ext "bypass4netnsd unreachable"))
      (optsOf [⟨8080, 80, "tcp", "10.0.0.5"⟩] ["bridge"])).trace ∧
    Call.nameRelease "web" "c1" ∉
      (onPostStop ((bypassWorld (v4InV6Bytes ++ [10, 4, 0, 1]) false).failingAt
        (.stopBypass "c1") (.ext "bypass4netnsd unreachable"))
      (optsOf [⟨8080, 80, "tcp", "10.0.0.5"⟩] ["bridge"])).trace := by
  decide

/-! ### The network namespace path -/

/-- C6. `getNetNSPath`: with the network-namespace annotation present its value is returned when
`os.Stat` finds it, whatever the pid, and the error of `os.Stat` otherwise; without the
annotation and with a pid other than 0 the same holds for `/proc/<pid>/ns/net`; without the
annotation and with pid 0 an error is returned. -/
theorem getNetNSPath_resolution (W : World) (st : State) :
    (∀ v, GoMap.get? st.Annotations NetworkNamespace = some v →
      (W.fails (.stat v) = none → (getNetNSPath W st).result = .ok v) ∧
      (∀ e, W.fails (.stat v) = some e → (getNetNSPath W st).result = .error e)) ∧
    (GoMap.get? st.Annotations NetworkNamespace = none → st.Pid ≠ 0 →
      (W.fails (.stat ("/proc/" ++ toString st.Pid ++ "/ns/net")) = none →
        (getNetNSPath W st).result = .ok ("/proc/" ++ toString st.Pid ++ "/ns/net")) ∧
      (∀ e, W.fails (.stat ("/proc/" ++ toString st.Pid ++ "/ns/net")) = some e →
        (getNetNSPath W st).result = .error e)) ∧
    (GoMap.get? st.Annotations NetworkNamespace = none → st.Pid = 0 →
      isError (getNetNSPath W st).result = true) := by
  refine ⟨?_, ?_, ?_⟩
  · intro v hv
    constructor
    · intro h; simp [getNetNSPath, hv, World.query, h]
    · intro e h; simp [getNetNSPath, hv, World.query, h]
  · intro hv hp
    constructor
    · intro h; simp [getNetNSPath, hv, hp, World.query, h]
    · intro e h; simp [getNetNSPath, hv, hp, World.query, h]
  · intro hv hp
    simp [getNetNSPath, hv, hp, Eff.fail, isError]

/-- C6, at a state with pid 4242: the annotation wins when it is present, the path under
`/proc` is used when it is absent, and a missing path is an error. -/
theorem getNetNSPath_resolution_witness :
    (getNetNSPath quietWorld (stateOf [(NetworkNamespace, "/some/path")])).result =
      .ok "/some/path" ∧
    (getNetNSPath quietWorld (stateOf [])).result = .ok "/proc/4242/ns/net" ∧
    (getNetNSPath (quietWorld.failingAt (.stat "/proc/4242/ns/net") (.ext "no such file"))
      (stateOf [])).result = .error (.ext "no such file") ∧
    ((quietWorld.fails (.stat "/some/path") = none →
        (getNetNSPath quietWorld (stateOf [(NetworkNamespace, "/some/path")])).result =
          .ok "/some/path") ∧
      (∀ e, quietWorld.fails (.stat "/some/path") = some e →
        (getNetNSPath quietWorld (stateOf [(NetworkNamespace, "/some/path")])).result =
          .error e)) :=
  ⟨by decide, by decide, by decide,
    (getNetNSPath_resolution quietWorld (stateOf [(NetworkNamespace, "/some/path")])).1
      "/some/path" (by decide)⟩

/-! ### The name store at `startContainer` -/

theorem World.nameStoreOk_query {α : Type} (W : World) (c : Call) (v : α)
    (h : c.isNameAcquire = false) : W.nameStoreOk.query c v = W.query c v := by
  simp [World.query, World.nameStoreOk, h]

theorem applyNetworkSettings_nameStoreOk (W : World) (opts : handlerOpts) :
    applyNetworkSettings W.nameStoreOk opts = applyNetworkSettings W opts := by
  unfold applyNetworkSettings getPortMapOpts getNetNSPath startRootless World.exec
  simp only [World.nameStoreOk_query, Call.isNameAcquire]
  rfl

/-- C10. A failure to open the name store or to acquire the name in `onStartContainer` is not
returned: the result is the one `onStartContainer` has in the world where both succeed and all
else is the same, and the calls made besides the two name-store calls are the same, in the same
order. -/
theorem onStartContainer_name_failure_not_returned (W : World) (opts : handlerOpts) :
    (onStartContainer W opts).result = (onStartContainer W.nameStoreOk opts).result ∧
    (onStartContainer W opts).trace.filter (fun c => !c.isNameAcquire) =
      (onStartContainer W.nameStoreOk opts).trace.filter (fun c => !c.isNameAcquire) := by
  unfold onStartContainer
  rw [applyNetworkSettings_nameStoreOk]
  simp only [World.exec, World.nameStoreOk_query, Call.isNameAcquire]
  simp only [World.query, World.nameStoreOk, Call.isNameAcquire, if_true]
  cases h1 : W.fails (.nameNew opts.dataStore (opts.state.Annotations.val labels.Namespace)) <;>
  cases h2 : W.fails (.nameAcquire (opts.state.Annotations.val labels.Name) opts.state.ID) <;>
  simp [Eff.andThen, Eff.logged, Call.isNameAcquire, List.filter_cons]

/-- C10, in a world whose name store cannot be opened, for a container without CNI handle:
the failure is not returned and `startedAt` is stamped. -/
theorem onStartContainer_name_failure_not_returned_witness :
    (onStartContainer (quietWorld.failingAt (.nameNew "/data" "default") (.ext "locked"))
      (optsOf [] [])).trace =
      [.nameNew "/data" "default", .lfLock "/run/s/c1", .lfLoad "/run/s/c1",
        .lfSave "/run/s/c1" 0] ∧
    (onStartContainer (quietWorld.failingAt (.nameNew "/data" "default") (.ext "locked"))
      (optsOf [] [])).result = .ok () ∧
    ((onStartContainer (quietWorld.failingAt (.nameNew "/data" "default") (.ext "locked"))
        (optsOf [] [])).result =
      (onStartContainer (quietWorld.failingAt (.nameNew "/data" "default")
        (.ext "locked")).nameStoreOk (optsOf [] [])).result ∧
     (onStartContainer (quietWorld.failingAt (.nameNew "/data" "default") (.ext "locked"))
        (optsOf [] [])).trace.filter (fun c => !c.isNameAcquire) =
      (onStartContainer (quietWorld.failingAt (.nameNew "/data" "default")
        (.ext "locked")).nameStoreOk (optsOf [] [])).trace.filter
          (fun c => !c.isNameAcquire)) :=
  ⟨by decide, by decide,
    onStartContainer_name_failure_not_returned
      (quietWorld.failingAt (.nameNew "/data" "default") (.ext "locked")) (optsOf [] [])⟩

/-! ### The dispatcher -/

/-- C9. When all arguments of `Run` are present, the state decodes, the state directory and the
log file are created and `newHandlerOpts` yields `opts`: for the events createRuntime,
startContainer and postStop the result of `Run` is that of `onCreateRuntime`, `onStartContainer`
and `onPostStop`, and the calls of `Run` are those of the set-up, those of that one handler and
the closing of the log file; for every other event the result is the error
`unexpected event` and no handler call is made. -/
theorem Run_dispatch (W : World) (st : State) (event dataStore cniPath cniNetconfPath : String)
    (opts : handlerOpts)
    (hargs : event ≠ "" ∧ dataStore ≠ "" ∧ cniPath ≠ "" ∧ cniNetconfPath ≠ "")
    (hdir : st.Annotations.val labels.StateDir ≠ "")
    (hmk : W.fails (.mkdirAll (st.Annotations.val labels.StateDir) 0o700) = none)
    (hlog : W.fails (.createFile (filepathJoin [st.Annotations.val labels.StateDir,
      "oci-hook." ++ event ++ ".log"])) = none)
    (hopts : (newHandlerOpts W st dataStore cniPath cniNetconfPath).result = .ok opts) :
    (event = "createRuntime" →
      (Run W (some (.ok st)) event dataStore cniPath cniNetconfPath).result =
        (onCreateRuntime W opts).result ∧
      (Run W (some (.ok st)) event dataStore cniPath cniNetconfPath).trace =
        [.mkdirAll (st.Annotations.val labels.StateDir) 0o700,
          .createFile (filepathJoin [st.Annotations.val labels.StateDir,
            "oci-hook." ++ event ++ ".log"])] ++
        (newHandlerOpts W st dataStore cniPath cniNetconfPath).trace ++
        (onCreateRuntime W opts).trace ++
        [.closeFile (filepathJoin [st.Annotations.val labels.StateDir,
          "oci-hook." ++ event ++ ".log"])]) ∧
    (event = "startContainer" →
      (Run W (some (.ok st)) event dataStore cniPath cniNetconfPath).result =
        (onStartContainer W opts).result ∧
      (Run W (some (.ok st)) event dataStore cniPath cniNetconfPath).trace =
        [.mkdirAll (st.Annotations.val labels.StateDir) 0o700,
          .createFile (filepathJoin [st.Annotations.val labels.StateDir,
            "oci-hook." ++ event ++ ".log"])] ++
        (newHandlerOpts W st dataStore cniPath cniNetconfPath).trace ++
        (onStartContainer W opts).trace ++
        [.closeFile (filepathJoin [st.Annotations.val labels.StateDir,
          "oci-hook." ++ event ++ ".log"])]) ∧
    (event = "postStop" →
      (Run W (some (.ok st)) event dataStore cniPath cniNetconfPath).result =
        (onPostStop W opts).result ∧
      (Run W (some (.ok st)) event dataStore cniPath cniNetconfPath).trace =
        [.mkdirAll (st.Annotations.val labels.StateDir) 0o700,
          .createFile (filepathJoin [st.Annotations.val labels.StateDir,
            "oci-hook." ++ event ++ ".log"])] ++
        (newHandlerOpts W st dataStore cniPath cniNetconfPath).trace ++
        (onPostStop W opts).trace ++
        [.closeFile (filepathJoin [st.Annotations.val labels.StateDir,
          "oci-hook." ++ event ++ ".log"])]) ∧
    (event ≠ "createRuntime" → event ≠ "startContainer" → event ≠ "postStop" →
      (Run W (some (.ok st)) event dataStore cniPath cniNetconfPath).result =
        .error (.unexpectedEvent event) ∧
      (Run W (some (.ok st)) event dataStore cniPath cniNetconfPath).trace =
        [.mkdirAll (st.Annotations.val labels.StateDir) 0o700,
          .createFile (filepathJoin [st.Annotations.val labels.StateDir,
            "oci-hook." ++ event ++ ".log"])] ++
        (newHandlerOpts W st dataStore cniPath cniNetconfPath).trace ++
        [.closeFile (filepathJoin [st.Annotations.val labels.StateDir,
          "oci-hook." ++ event ++ ".log"])]) := by
  obtain ⟨h1, h2, h3, h4⟩ := hargs
  have hrun : Run W (some (.ok st)) event dataStore cniPath cniNetconfPath =
      ⟨[.mkdirAll (st.Annotations.val labels.StateDir) 0o700,
          .createFile (filepathJoin [st.Annotations.val labels.StateDir,
            "oci-hook." ++ event ++ ".log"])] ++
        (newHandlerOpts W st dataStore cniPath cniNetconfPath).trace ++
        (dispatch W event opts).trace ++
        [.closeFile (filepathJoin [st.Annotations.val labels.StateDir,
          "oci-hook." ++ event ++ ".log"])], (dispatch W event opts).result⟩ := by
    simp [Run, h1, h2, h3, h4, hdir, Eff.ofExcept, Eff.andThen, Eff.mapErr, World.exec,
      World.query, hmk, hlog, hopts, Eff.deferred]
  rw [hrun]
  refine ⟨?_, ?_, ?_, ?_⟩
  · intro he
    subst he
    simp [dispatch]
  · intro he
    subst he
    simp [dispatch]
  · intro he
    subst he
    simp [dispatch]
  · intro he1 he2 he3
    simp [dispatch, he1, he2, he3, Eff.fail]

/-- C9, for the event postStop on a container without CNI handle, and for an unknown event. -/
theorem Run_dispatch_witness :
    (newHandlerOpts hookWorld (stateS1ExtraHosts "/b") "/data" "/opt/cni/bin"
      "/etc/cni/net.d").result = .ok optsS1 ∧
    (Run hookWorld (some (.ok (stateS1ExtraHosts "/b"))) "postStop" "/data" "/opt/cni/bin"
      "/etc/cni/net.d").trace =
      [.mkdirAll "/run/s/c1" 0o700, .createFile "/run/s/c1/oci-hook.postStop.log",
        .openSpec "/b/config.json", .nameNew "/data" "default", .nameRelease "" "c1",
        .closeFile "/run/s/c1/oci-hook.postStop.log"] ∧
    (Run hookWorld (some (.ok (stateS1ExtraHosts "/b"))) "postStop" "/data" "/opt/cni/bin"
      "/etc/cni/net.d").result = (onPostStop hookWorld optsS1).result ∧
    (Run hookWorld (some (.ok (stateS1ExtraHosts "/b"))) "prestart" "/data" "/opt/cni/bin"
      "/etc/cni/net.d").result = .error (.unexpectedEvent "prestart") :=
  ⟨by decide, by decide,
    ((Run_dispatch hookWorld (stateS1ExtraHosts "/b") "postStop" "/data" "/opt/cni/bin"
      "/etc/cni/net.d" optsS1 (by decide) (by decide) (by decide) (by decide)
      (by decide)).2.2.1 rfl).1,
    ((Run_dispatch hookWorld (stateS1ExtraHosts "/b") "prestart" "/data" "/opt/cni/bin"
      "/etc/cni/net.d" optsS1 (by decide) (by decide) (by decide) (by decide)
      (by decide)).2.2.2 (by decide) (by decide) (by decide)).1⟩

/-! ### Scenario S1 -/

/-- C7 (amended). Scenario S1, for any bundle and any world in which the state directory and
the log file can be created: `Run` creates the state directory with mode 0700 and the log file
`oci-hook.createRuntime.log`, then fails while it builds the handler options, because
`getExtraHosts` cannot decode the absent extraHosts annotation; it makes no other call before it
closes the log file, so no CNI handle is built, no handler runs and nothing is written to the
hosts store, and it returns the JSON error. With an empty list of extra hosts added to the
annotations, in a world that is not rootless, whose detector finds the type none and where the
bundle configuration can be read, `Run` builds options without CNI handle, makes no hosts-store
call and returns success. -/
theorem Run_S1 (W : World) (bundle dataStore cniPath cniNetconfPath : String)
    (hargs : dataStore ≠ "" ∧ cniPath ≠ "" ∧ cniNetconfPath ≠ "")
    (hmk : W.fails (.mkdirAll "/run/s/c1" 0o700) = none)
    (hlog : W.fails (.createFile "/run/s/c1/oci-hook.createRuntime.log") = none) :
    ((Run W (some (.ok (stateS1 bundle))) "createRuntime" dataStore cniPath
        cniNetconfPath).trace =
      [.mkdirAll "/run/s/c1" 0o700, .createFile "/run/s/c1/oci-hook.createRuntime.log",
        .closeFile "/run/s/c1/oci-hook.createRuntime.log"] ∧
     (Run W (some (.ok (stateS1 bundle))) "createRuntime" dataStore cniPath
        cniNetconfPath).result = .error .json) ∧
    (W.isRootlessChild = false → W.detect ["none"] = .ok .None →
      W.fails (.openSpec (filepathJoin [bundle, "config.json"])) = none →
      (Run W (some (.ok (stateS1ExtraHosts bundle))) "createRuntime" dataStore cniPath
        cniNetconfPath).trace =
        [.mkdirAll "/run/s/c1" 0o700, .createFile "/run/s/c1/oci-hook.createRuntime.log",
          .openSpec (filepathJoin [bundle, "config.json"]), .loadAppArmor,
          .closeFile "/run/s/c1/oci-hook.createRuntime.log"] ∧
      (Run W (some (.ok (stateS1ExtraHosts bundle))) "createRuntime" dataStore cniPath
        cniNetconfPath).result = .ok () ∧
      ∃ opts, (newHandlerOpts W (stateS1ExtraHosts bundle) dataStore cniPath
        cniNetconfPath).result = .ok opts ∧ opts.cni = none) := by
  obtain ⟨h2, h3, h4⟩ := hargs
  have hdir : Annotations.val annotationsS1 labels.StateDir = "/run/s/c1" := by decide
  have hdir2 : Annotations.val (annotationsS1 ++ [(labels.ExtraHosts, "[]")]) labels.StateDir =
    "/run/s/c1" := by decide
  have hpath : filepathJoin ["/run/s/c1", "oci-hook.createRuntime.log"] =
    "/run/s/c1/oci-hook.createRuntime.log" := by decide
  have hx : jsonUnmarshalStrings (Annotations.val annotationsS1 labels.ExtraHosts) =
    .error .json := by decide
  have hx2 : jsonUnmarshalStrings
    (Annotations.val (annotationsS1 ++ [(labels.ExtraHosts, "[]")]) labels.ExtraHosts) =
    .ok [] := by decide
  have hns : Annotations.val (annotationsS1 ++ [(labels.ExtraHosts, "[]")]) labels.Namespace =
    "default" := by decide
  have hnet : jsonUnmarshalStrings
    (Annotations.val (annotationsS1 ++ [(labels.ExtraHosts, "[]")]) labels.Networks) =
    .ok ["none"] := by decide
  have hpid : Annotations.val (annotationsS1 ++ [(labels.ExtraHosts, "[]")]) labels.PIDFile =
    "" := by decide
  have hports : Annotations.val (annotationsS1 ++ [(labels.ExtraHosts, "[]")]) labels.Ports =
    "" := by decide
  constructor
  · simp [Run, stateS1, h2, h3, h4, hdir, hpath, Eff.ofExcept, Eff.andThen, Eff.mapErr,
      World.exec, World.query, hmk, hlog, Eff.deferred, newHandlerOpts, getExtraHosts, hx]
  · intro hroot hdet hspec
    have hopts : (newHandlerOpts W (stateS1ExtraHosts bundle) dataStore cniPath
        cniNetconfPath).trace = [.openSpec (filepathJoin [bundle, "config.json"])] ∧
        ∃ opts, (newHandlerOpts W (stateS1ExtraHosts bundle) dataStore cniPath
          cniNetconfPath).result = .ok opts ∧ opts.cni = none := by
      simp [newHandlerOpts, stateS1ExtraHosts, getExtraHosts, hx2, hns, hnet, hpid, hports,
        loadSpec, Eff.ofExcept, Eff.andThen, World.exec, World.query, hspec, hdet, buildCNI,
        buildRootlessClients, hroot, Eff.ret, extraHostsLoop]
    obtain ⟨htr, opts, ho, hcni⟩ := hopts
    have hd : (dispatch W "createRuntime" opts) = ⟨[.loadAppArmor], .ok ()⟩ := by
      simp [dispatch, onCreateRuntime, hcni, Eff.andThen, Eff.ret]
    have hrun : Run W (some (.ok (stateS1ExtraHosts bundle))) "createRuntime" dataStore cniPath
        cniNetconfPath =
        ⟨[.mkdirAll "/run/s/c1" 0o700, .createFile "/run/s/c1/oci-hook.createRuntime.log"] ++
          (newHandlerOpts W (stateS1ExtraHosts bundle) dataStore cniPath cniNetconfPath).trace ++
          (dispatch W "createRuntime" opts).trace ++
          [.closeFile "/run/s/c1/oci-hook.createRuntime.log"],
          (dispatch W "createRuntime" opts).result⟩ := by
      have hdir3 : (stateS1ExtraHosts bundle).Annotations.val labels.StateDir = "/run/s/c1" :=
        hdir2
      simp [Run, h2, h3, h4, hdir3, hpath, Eff.ofExcept, Eff.andThen, Eff.mapErr,
        World.exec, World.query, hmk, hlog, Eff.deferred, ho]
    rw [hrun, hd, htr]
    exact ⟨rfl, rfl, opts, ho, hcni⟩

/-- C7, in a world where every call succeeds, with the bundle `/b`. -/
theorem Run_S1_witness :
    ((Run hookWorld (some (.ok (stateS1 "/b"))) "createRuntime" "/data" "/opt/cni/bin"
        "/etc/cni/net.d").trace =
      [.mkdirAll "/run/s/c1" 0o700, .createFile "/run/s/c1/oci-hook.createRuntime.log",
        .closeFile "/run/s/c1/oci-hook.createRuntime.log"] ∧
     (Run hookWorld (some (.ok (stateS1 "/b"))) "createRuntime" "/data" "/opt/cni/bin"
        "/etc/cni/net.d").result = .error .json) ∧
    ((Run hookWorld (some (.ok (stateS1ExtraHosts "/b"))) "createRuntime" "/data"
        "/opt/cni/bin" "/etc/cni/net.d").trace =
        [.mkdirAll "/run/s/c1" 0o700, .createFile "/run/s/c1/oci-hook.createRuntime.log",
          .openSpec (filepathJoin ["/b", "config.json"]), .loadAppArmor,
          .closeFile "/run/s/c1/oci-hook.createRuntime.log"] ∧
      (Run hookWorld (some (.ok (stateS1ExtraHosts "/b"))) "createRuntime" "/data"
        "/opt/cni/bin" "/etc/cni/net.d").result = .ok () ∧
      ∃ opts, (newHandlerOpts hookWorld (stateS1ExtraHosts "/b") "/data" "/opt/cni/bin"
        "/etc/cni/net.d").result = .ok opts ∧ opts.cni = none) :=
  ⟨(Run_S1 hookWorld "/b" "/data" "/opt/cni/bin" "/etc/cni/net.d" (by decide) rfl rfl).1,
    (Run_S1 hookWorld "/b" "/data" "/opt/cni/bin" "/etc/cni/net.d" (by decide) rfl rfl).2
      rfl rfl rfl⟩

/-- C7 fails as stated: in a world where every call succeeds and the bundle configuration is
readable, `Run` on the state of scenario S1 and the event createRuntime does not return
success: the extraHosts annotation is absent, `getExtraHosts` fails on the empty JSON input and
`Run` returns that error after it has created the state directory and the log file. -/
theorem Run_S1_returns_json_error :
    getExtraHosts (stateS1 "/b") = .error .json ∧
    (Run hookWorld (some (.ok (stateS1 "/b"))) "createRuntime" "/data" "/opt/cni/bin"
      "/etc/cni/net.d").result = .error .json ∧
    (Run hookWorld (some (.ok (stateS1 "/b"))) "createRuntime" "/data" "/opt/cni/bin"
      "/etc/cni/net.d").result ≠ .ok () ∧
    (Run hookWorld (some (.ok (stateS1 "/b"))) "createRuntime" "/data" "/opt/cni/bin"
      "/etc/cni/net.d").trace =
      [.mkdirAll "/run/s/c1" 0o700, .createFile "/run/s/c1/oci-hook.createRuntime.log",
        .closeFile "/run/s/c1/oci-hook.createRuntime.log"] := by
  decide

/-! ### The port map keeps every port -/

/-- In rootless mode, for a non-empty `opts.ports`, when the supervisor Info call fails or
answers with both the network driver and the port driver, `getPortMapOpts` succeeds with
exactly one option, a port-map capability; its list is as long as `opts.ports`, and its element
at every index has the host port, the container port and the protocol of the element of
`opts.ports` at that index, so no port is dropped, doubled or moved and only the host IP can
differ. -/
theorem getPortMapOpts_keeps_ports (W : World) (opts : handlerOpts)
    (hroot : W.isRootlessChild = true) (hports : opts.ports ≠ [])
    (hinfo : ∀ info, W.rlkInfo = .ok info →
      info.NetworkDriver.isSome = true ∧ info.PortDriver.isSome = true) :
    ∃ ps, (getPortMapOpts W opts).result = .ok (opts, [.capabilityPortMap ps]) ∧
      ps.length = opts.ports.length ∧
      ∀ (i : Nat) (p : PortMapping), opts.ports[i]? = some p →
        ∃ q : PortMapping, ps[i]? = some q ∧ q.HostPort = p.HostPort ∧
          q.ContainerPort = p.ContainerPort ∧ q.Protocol = p.Protocol := by
  have hne : opts.ports.length > 0 := List.length_pos.mpr hports
  have hread : ∃ v, readInfo W.rlkInfo = .ok v := by
    unfold readInfo
    cases h : W.rlkInfo with
    | error e => exact ⟨_, rfl⟩
    | ok info =>
      obtain ⟨h1, h2⟩ := hinfo info h
      cases hn : info.NetworkDriver with
      | none => rw [hn] at h1; cases h1
      | some nd =>
        cases hp : info.PortDriver with
        | none => rw [hp] at h2; cases h2
        | some pd => exact ⟨(nd.ChildIP, pd.DisallowLoopbackChildIP), by simp [hn, hp]⟩
  obtain ⟨v, hv⟩ := hread
  refine ⟨opts.ports.map (rewriteHostIP v.1 v.2), ?_, ?_, ?_⟩
  · rw [getPortMapOpts_rootless W opts hroot hne, hv]
    simp only [Except.map, portLoop_eq_map]
  · rw [List.length_map]
  · intro i p hp
    refine ⟨rewriteHostIP v.1 v.2 p, ?_, ?_⟩
    · simp [hp]
    · exact rewriteHostIP_frame _ _ p

/-- The port map with two ports, once with a supervisor whose Info call fails and once with one
that reports the child IP 10.4.0.1 and disallows the loopback child IP. -/
theorem getPortMapOpts_keeps_ports_witness :
    (getPortMapOpts { rootlessWorld [] false with rlkInfo := .error (.ext "no API socket") }
        (optsOf [⟨8080, 80, "tcp", "10.0.0.5"⟩, ⟨5353, 53, "udp", "127.0.0.1"⟩]
          ["bridge"])).result =
      .ok (optsOf [⟨8080, 80, "tcp", "10.0.0.5"⟩, ⟨5353, 53, "udp", "127.0.0.1"⟩] ["bridge"],
        [.capabilityPortMap [⟨8080, 80, "tcp", "127.0.0.1"⟩, ⟨5353, 53, "udp", "127.0.0.1"⟩]]) ∧
    (getPortMapOpts (rootlessWorld (v4InV6Bytes ++ [10, 4, 0, 1]) true)
        (optsOf [⟨8080, 80, "tcp", "10.0.0.5"⟩, ⟨5353, 53, "udp", "127.0.0.1"⟩]
          ["bridge"])).result =
      .ok (optsOf [⟨8080, 80, "tcp", "10.0.0.5"⟩, ⟨5353, 53, "udp", "127.0.0.1"⟩] ["bridge"],
        [.capabilityPortMap [⟨8080, 80, "tcp", "10.4.0.1"⟩, ⟨5353, 53, "udp", "10.4.0.1"⟩]]) ∧
    ∃ ps, (getPortMapOpts (rootlessWorld (v4InV6Bytes ++ [10, 4, 0, 1]) true)
        (optsOf [⟨8080, 80, "tcp", "10.0.0.5"⟩, ⟨5353, 53, "udp", "127.0.0.1"⟩]
          ["bridge"])).result =
        .ok (optsOf [⟨8080, 80, "tcp", "10.0.0.5"⟩, ⟨5353, 53, "udp", "127.0.0.1"⟩] ["bridge"],
          [.capabilityPortMap ps]) ∧
      ps.length = (optsOf [⟨8080, 80, "tcp", "10.0.0.5"⟩, ⟨5353, 53, "udp", "127.0.0.1"⟩]
        ["bridge"]).ports.length ∧
      ∀ (i : Nat) (p : PortMapping),
        (optsOf [⟨8080, 80, "tcp", "10.0.0.5"⟩, ⟨5353, 53, "udp", "127.0.0.1"⟩]
          ["bridge"]).ports[i]? = some p →
        ∃ q : PortMapping, ps[i]? = some q ∧ q.HostPort = p.HostPort ∧
          q.ContainerPort = p.ContainerPort ∧ q.Protocol = p.Protocol :=
  ⟨by decide, by decide,
    getPortMapOpts_keeps_ports (rootlessWorld (v4InV6Bytes ++ [10, 4, 0, 1]) true)
      (optsOf [⟨8080, 80, "tcp", "10.0.0.5"⟩, ⟨5353, 53, "udp", "127.0.0.1"⟩] ["bridge"])
      rfl (by decide) (fun info h => by cases h; exact ⟨rfl, rfl⟩)⟩

/-- C12, at the input where the code fails it: in rootless mode with two ports, when the
supervisor answers the Info call without port driver (or without network driver),
`getPortMapOpts` emits no port-map capability: it panics on the nil pointer right after the
Info call, and so does `onCreateRuntime`, before any CNI call. -/
theorem getPortMapOpts_panics_without_driver :
    (getPortMapOpts (worldWithoutPortDriver (v4InV6Bytes ++ [10, 4, 0, 1]))
        (optsOf [⟨8080, 80, "tcp", "10.0.0.5"⟩, ⟨5353, 53, "udp", "127.0.0.1"⟩]
          ["bridge"])).result = .error (.goPanic "nil pointer dereference") ∧
    (getPortMapOpts (worldWithoutPortDriver (v4InV6Bytes ++ [10, 4, 0, 1]))
        (optsOf [⟨8080, 80, "tcp", "10.0.0.5"⟩, ⟨5353, 53, "udp", "127.0.0.1"⟩]
          ["bridge"])).trace = [.rlkInfo] ∧
    (getPortMapOpts { rootlessWorld [] false with rlkInfo := .ok ⟨none, some ⟨false⟩⟩ }
        (optsOf [⟨8080, 80, "tcp", "10.0.0.5"⟩, ⟨5353, 53, "udp", "127.0.0.1"⟩]
          ["bridge"])).result = .error (.goPanic "nil pointer dereference") ∧
    (onCreateRuntime (worldWithoutPortDriver (v4InV6Bytes ++ [10, 4, 0, 1]))
        (optsOf [⟨8080, 80, "tcp", "10.0.0.5"⟩, ⟨5353, 53, "udp", "127.0.0.1"⟩]
          ["bridge"])).result = .error (.goPanic "nil pointer dereference") ∧
    (onCreateRuntime (worldWithoutPortDriver (v4InV6Bytes ++ [10, 4, 0, 1]))
        (optsOf [⟨8080, 80, "tcp", "10.0.0.5"⟩, ⟨5353, 53, "udp", "127.0.0.1"⟩]
          ["bridge"])).trace = [.loadAppArmor, .rlkInfo] := by
  decide

/-! ### Paths -/

theorem joinSlash_append (a b : List (List Char)) :
    joinSlash (a ++ b) = joinSlash a ++ joinSlash b := by
  simp [joinSlash]

theorem joinSlash_singleton (c : List Char) : joinSlash [c] = '/' :: c := by
  simp [joinSlash]

theorem slash_intercalate (c : List Char) (cs : List (List Char)) :
    '/' :: List.intercalate ['/'] (c :: cs) = joinSlash (c :: cs) := by
  induction cs generalizing c with
  | nil => simp [List.intercalate, joinSlash]
  | cons d ds ih =>
    have := ih d
    simp only [List.intercalate, List.intersperse, List.flatten, joinSlash, List.flatMap_cons,
      List.cons_append, List.nil_append, List.singleton_append] at this ⊢
    rw [← this]

theorem slash_intercalate_eq (comps : List (List Char)) :
    '/' :: List.intercalate ['/'] comps = rootedChars comps := by
  cases comps with
  | nil => simp [rootedChars, List.intercalate]
  | cons c cs => rw [slash_intercalate]; simp [rootedChars]

theorem splitSlash_ne_nil (l : List Char) : splitSlash l ≠ [] := by
  induction l with
  | nil => simp [splitSlash]
  | cons c cs ih =>
    rw [splitSlash]
    split
    · simp
    · split <;> simp

theorem splitSlash_of_not_mem (c : List Char) (h : '/' ∉ c) : splitSlash c = [c] := by
  induction c with
  | nil => rfl
  | cons x xs ih =>
    have hx : ¬ x = '/' := fun e => h (by rw [e]; exact List.mem_cons_self _ _)
    have hxs : '/' ∉ xs := fun e => h (List.mem_cons_of_mem _ e)
    rw [splitSlash, if_neg hx, ih hxs]

theorem splitSlash_append_slash (xs c : List Char) (h : '/' ∉ c) :
    splitSlash (xs ++ '/' :: c) = splitSlash xs ++ [c] := by
  induction xs with
  | nil => simp [splitSlash, splitSlash_of_not_mem c h]
  | cons x xs ih =>
    by_cases hx : x = '/'
    · simp [splitSlash, hx, ih]
    · rw [List.cons_append, splitSlash, if_neg hx, ih, splitSlash, if_neg hx]
      cases hs : splitSlash xs with
      | nil => exact absurd hs (splitSlash_ne_nil xs)
      | cons a t => simp

theorem splitSlash_joinSlash (comps : List (List Char)) (h : ∀ e ∈ comps, '/' ∉ e) :
    splitSlash (joinSlash comps) = [] :: comps := by
  induction comps using List.reverseRecOn with
  | nil => rfl
  | append_singleton init c ih =>
    rw [joinSlash_append, joinSlash_singleton, splitSlash_append_slash _ _
      (h c (by simp)), ih (fun e he => h e (by simp [he]))]
    simp

theorem splitSlash_not_mem (l : List Char) : ∀ e ∈ splitSlash l, '/' ∉ e := by
  induction l with
  | nil => simp [splitSlash]
  | cons c cs ih =>
    intro e he
    rw [splitSlash] at he
    split at he
    · rcases List.mem_cons.mp he with h | h
      · rw [h]; simp
      · exact ih e h
    · rename_i hc
      split at he
      · rename_i a t hs
        rcases List.mem_cons.mp he with h | h
        · rw [h]
          intro hm
          rcases List.mem_cons.mp hm with h1 | h1
          · exact hc h1.symm
          · exact ih a (by rw [hs]; exact List.mem_cons_self _ _) h1
        · exact ih e (by rw [hs]; exact List.mem_cons_of_mem _ h)
      · simp only [List.mem_singleton] at he
        rw [he]
        intro hm
        rcases List.mem_cons.mp hm with h1 | h1
        · exact hc h1.symm
        · cases h1

theorem cleanElems_rooted_normal (l out : List (List Char)) (hl : ∀ e ∈ l, '/' ∉ e)
    (ho : ∀ e ∈ out, NormalElem e) : ∀ e ∈ cleanElems true l out, NormalElem e := by
  induction l generalizing out with
  | nil =>
    intro e he
    simp only [cleanElems, List.mem_reverse] at he
    exact ho e he
  | cons c cs ih =>
    have hcs : ∀ e ∈ cs, '/' ∉ e := fun e he => hl e (List.mem_cons_of_mem _ he)
    rw [cleanElems.eq_def]
    simp only
    split
    · exact ih out hcs ho
    · rename_i h1
      split
      · split
        · rename_i top rest
          split
          · rename_i htop
            have := (ho top (List.mem_cons_self _ _)).2.2.1
            exact absurd htop this
          · exact ih rest hcs (fun e he => ho e (List.mem_cons_of_mem _ he))
        · simp only [if_true]
          exact ih [] hcs (by simp)
      · rename_i h2
        apply ih (c :: out) hcs
        intro e he
        rcases List.mem_cons.mp he with h | h
        · rw [h]
          exact ⟨fun e1 => h1 (Or.inl e1), fun e1 => h1 (Or.inr e1), h2,
            hl c (List.mem_cons_self _ _)⟩
        · exact ho e h

theorem cleanElems_of_normal (r : Bool) (l out : List (List Char))
    (hl : ∀ e ∈ l, e = [] ∨ NormalElem e) :
    cleanElems r l out = out.reverse ++ l.filter (fun e => e ≠ []) := by
  induction l generalizing out with
  | nil => simp [cleanElems]
  | cons c cs ih =>
    have hcs : ∀ e ∈ cs, e = [] ∨ NormalElem e := fun e he => hl e (List.mem_cons_of_mem _ he)
    rcases hl c (List.mem_cons_self _ _) with hc | hc
    · subst hc
      rw [cleanElems.eq_def]
      simp [ih out hcs]
    · rw [cleanElems.eq_def]
      simp only
      rw [if_neg (by
        intro h
        rcases h with h | h
        · exact hc.1 h
        · exact hc.2.1 h), if_neg hc.2.2.1, ih _ hcs]
      simp [hc.1]
theorem rootedChars_concat (init : List (List Char)) (c : List Char) :
    rootedChars (init ++ [c]) = joinSlash init ++ '/' :: c := by
  simp [rootedChars, joinSlash_append, joinSlash_singleton]

theorem rootedChars_head (comps : List (List Char)) :
    ∃ r, rootedChars comps = '/' :: r := by
  cases comps with
  | nil => exact ⟨[], rfl⟩
  | cons c cs => exact ⟨c ++ joinSlash cs, by simp [rootedChars, joinSlash]⟩

theorem splitSlash_rootedChars (comps : List (List Char)) (h : ∀ e ∈ comps, NormalElem e) :
    (splitSlash (rootedChars comps)).filter (fun e => e ≠ []) = comps ∧
    ∀ e ∈ splitSlash (rootedChars comps), e = [] ∨ NormalElem e := by
  have hne : comps.filter (fun e => e ≠ []) = comps := by
    rw [List.filter_eq_self]
    intro e he
    simpa using (h e he).1
  by_cases hc : comps = []
  · subst hc
    simp [rootedChars, splitSlash]
  · rw [rootedChars, if_neg hc, splitSlash_joinSlash comps (fun e he => (h e he).2.2.2)]
    constructor
    · rw [List.filter_cons]
      simpa using hne
    · intro e he
      rcases List.mem_cons.mp he with h1 | h1
      · exact Or.inl h1
      · exact Or.inr (h e h1)

theorem String.mk_ne_empty (c : Char) (r : List Char) : String.mk (c :: r) ≠ "" := by
  intro h
  have := congrArg String.data h
  simp at this

theorem filepathClean_mk_rooted (r : List Char) :
    filepathClean (String.mk ('/' :: r)) =
      String.mk (rootedChars (cleanElems true (splitSlash ('/' :: r)) [])) := by
  unfold filepathClean
  rw [if_neg (String.mk_ne_empty _ _)]
  have htl : (String.mk ('/' :: r)).toList = '/' :: r := rfl
  simp only [htl, List.head?_cons, decide_True, if_true]
  have hout : "/" ++ String.mk (List.intercalate ['/']
      (cleanElems true (splitSlash ('/' :: r)) [])) =
      String.mk (rootedChars (cleanElems true (splitSlash ('/' :: r)) [])) := by
    rw [← slash_intercalate_eq]
    rfl
  rw [hout]
  obtain ⟨r2, hr2⟩ := rootedChars_head (cleanElems true (splitSlash ('/' :: r)) [])
  rw [hr2, if_neg (String.mk_ne_empty _ _)]

theorem filepathClean_rooted_normal (r : List Char) :
    ∃ E, (∀ e ∈ E, NormalElem e) ∧
      filepathClean (String.mk ('/' :: r)) = String.mk (rootedChars E) :=
  ⟨_, cleanElems_rooted_normal _ [] (splitSlash_not_mem _) (by simp),
    filepathClean_mk_rooted r⟩

theorem filepathClean_of_normal (r : List Char)
    (h : ∀ e ∈ splitSlash ('/' :: r), e = [] ∨ NormalElem e) :
    filepathClean (String.mk ('/' :: r)) =
      String.mk (rootedChars ((splitSlash ('/' :: r)).filter (fun e => e ≠ []))) := by
  rw [filepathClean_mk_rooted, cleanElems_of_normal true _ [] h]
  simp
theorem dirPart_append_slash (xs c : List Char) (h : '/' ∉ c) :
    dirPart (xs ++ '/' :: c) = xs ++ ['/'] := by
  induction xs with
  | nil => simp [dirPart, h]
  | cons x xs ih => simp [dirPart, ih]

theorem lastElem_append_slash (xs c : List Char) (h : '/' ∉ c) :
    lastElem (xs ++ '/' :: c) = c := by
  induction xs with
  | nil => simp [lastElem, h]
  | cons x xs ih => simp [lastElem, ih]

theorem stripSlashes_append (ys z : List Char) (hz : stripSlashes z = z) (hne : z ≠ []) :
    stripSlashes (ys ++ z) = ys ++ z := by
  induction ys with
  | nil => simpa using hz
  | cons y ys ih =>
    rw [List.cons_append, stripSlashes, ih]
    cases hyz : ys ++ z with
    | nil =>
      have := List.append_eq_nil.mp hyz
      exact absurd this.2 hne
    | cons a t => rfl

theorem stripSlashes_of_not_mem (c : List Char) (h : '/' ∉ c) : stripSlashes c = c := by
  induction c with
  | nil => rfl
  | cons x xs ih =>
    have hx : ¬ x = '/' := fun e => h (by rw [e]; exact List.mem_cons_self _ _)
    have hxs : '/' ∉ xs := fun e => h (List.mem_cons_of_mem _ e)
    rw [stripSlashes, ih hxs]
    cases xs with
    | nil => simp [hx]
    | cons a t => rfl

theorem stripSlashes_append_slash (xs c : List Char) (h : '/' ∉ c) (hne : c ≠ []) :
    stripSlashes (xs ++ '/' :: c) = xs ++ '/' :: c := by
  have h1 : stripSlashes ('/' :: c) = '/' :: c := by
    rw [stripSlashes, stripSlashes_of_not_mem c h]
    cases c with
    | nil => exact absurd rfl hne
    | cons a t => rfl
  exact stripSlashes_append xs ('/' :: c) h1 (by simp)

theorem filepathDir_rooted (init : List (List Char)) (c : List Char)
    (hinit : ∀ e ∈ init, NormalElem e) (hc : '/' ∉ c) :
    filepathDir (String.mk (rootedChars (init ++ [c]))) = String.mk (rootedChars init) := by
  unfold filepathDir
  have htl : (String.mk (rootedChars (init ++ [c]))).toList = rootedChars (init ++ [c]) := rfl
  rw [htl, rootedChars_concat, dirPart_append_slash _ _ hc]
  have hsplit : splitSlash (joinSlash init ++ ['/']) = ([] :: init) ++ [[]] := by
    rw [splitSlash_append_slash _ _ (by simp),
      splitSlash_joinSlash init (fun e he => (hinit e he).2.2.2)]
  have hhead : ∃ r, joinSlash init ++ ['/'] = '/' :: r := by
    cases init with
    | nil => exact ⟨[], rfl⟩
    | cons a t => exact ⟨a ++ joinSlash t ++ ['/'], by simp [joinSlash]⟩
  obtain ⟨r, hr⟩ := hhead
  rw [hr, filepathClean_of_normal r (by
    rw [← hr, hsplit]
    intro e he
    simp only [List.cons_append, List.mem_cons, List.mem_append, List.mem_singleton,
      List.not_mem_nil, or_false] at he
    rcases he with h | h | h
    · exact Or.inl h
    · exact Or.inr (hinit e h)
    · exact Or.inl h), ← hr, hsplit]
  congr 2
  have hne : init.filter (fun e => e ≠ []) = init := by
    rw [List.filter_eq_self]
    intro e he
    simpa using (hinit e he).1
  rw [List.cons_append, List.filter_cons, List.filter_append, hne]
  simp

theorem filepathBase_rooted (init : List (List Char)) (c : List Char) (hc : NormalElem c) :
    filepathBase (String.mk (rootedChars (init ++ [c]))) = String.mk c := by
  unfold filepathBase
  have htl : (String.mk (rootedChars (init ++ [c]))).toList = rootedChars (init ++ [c]) := rfl
  obtain ⟨r, hr⟩ := rootedChars_head (init ++ [c])
  rw [if_neg (by rw [hr]; exact String.mk_ne_empty _ _), htl, rootedChars_concat,
    stripSlashes_append_slash _ _ hc.2.2.2 hc.1, lastElem_append_slash _ _ hc.2.2.2,
    if_neg hc.1]
theorem filepathJoin_two (a b : String) (r : List Char) (ha : a.toList = '/' :: r) :
    filepathJoin [a, b] = filepathClean (String.mk ('/' :: (r ++ '/' :: b.toList))) := by
  have hne : a ≠ "" := by
    intro h
    rw [h] at ha
    cases ha
  rw [filepathJoin, if_neg hne]
  congr 1
  apply String.ext
  have : ("/".intercalate [a, b]) = a ++ "/" ++ b := rfl
  rw [this]
  simp only [String.data_append]
  have ha2 : a.data = '/' :: r := ha
  rw [ha2]
  simp

theorem dotElem_normal (c : List Char) (hc : NormalElem c) : NormalElem ('.' :: c) := by
  refine ⟨by simp, ?_, ?_, ?_⟩
  · intro h
    simp only [List.cons.injEq, true_and] at h
    exact hc.1 h
  · intro h
    simp only [List.cons.injEq, true_and] at h
    exact hc.2.1 h
  · intro h
    rcases List.mem_cons.mp h with h1 | h1
    · cases h1
    · exact hc.2.2.2 h1

theorem filepathJoin_dot (init : List (List Char)) (c : List Char)
    (hinit : ∀ e ∈ init, NormalElem e) (hc : NormalElem c) :
    filepathJoin [String.mk (rootedChars init), "." ++ String.mk c] =
      String.mk (rootedChars (init ++ ['.' :: c])) := by
  obtain ⟨r, hr⟩ := rootedChars_head init
  have hd := dotElem_normal c hc
  have ha : (String.mk (rootedChars init)).toList = '/' :: r := hr
  rw [filepathJoin_two (String.mk (rootedChars init)) ("." ++ String.mk c) r ha]
  have hb : ("." ++ String.mk c).toList = '.' :: c := rfl
  rw [hb]
  have hl : '/' :: (r ++ '/' :: '.' :: c) = rootedChars init ++ '/' :: '.' :: c := by
    rw [hr]; rfl
  have hs := splitSlash_rootedChars init hinit
  have hsplit : splitSlash ('/' :: (r ++ '/' :: '.' :: c)) =
      splitSlash (rootedChars init) ++ ['.' :: c] := by
    rw [hl, splitSlash_append_slash _ _ hd.2.2.2]
  rw [filepathClean_of_normal _ (by
    rw [hsplit]
    intro e he
    rcases List.mem_append.mp he with h | h
    · exact hs.2 e h
    · simp only [List.mem_singleton] at h
      rw [h]
      exact Or.inr hd), hsplit, List.filter_append, hs.1]
  simp

theorem absWith_rooted (wd path : String) (hwd : filepathIsAbs wd = true) :
    ∃ r, absWith wd path = filepathClean (String.mk ('/' :: r)) := by
  unfold absWith
  by_cases hp : filepathIsAbs path = true
  · rw [if_pos hp]
    unfold filepathIsAbs at hp
    cases hl : path.toList with
    | nil => rw [hl] at hp; simp at hp
    | cons a t =>
      rw [hl] at hp
      simp only [List.head?_cons, Option.some.injEq, decide_eq_true_eq] at hp
      subst hp
      refine ⟨t, ?_⟩
      congr 1
      exact String.ext hl
  · rw [if_neg hp]
    unfold filepathIsAbs at hwd
    cases hl : wd.toList with
    | nil => rw [hl] at hwd; simp at hwd
    | cons a t =>
      rw [hl] at hwd
      simp only [List.head?_cons, Option.some.injEq, decide_eq_true_eq] at hwd
      subst hwd
      exact ⟨_, filepathJoin_two wd path t hl⟩

theorem filepathAbs_eq (getwd : Except Err String) (wd path : String)
    (h : filepathIsAbs path = true ∨ getwd = .ok wd) :
    filepathAbs getwd path = .ok (absWith wd path) := by
  unfold filepathAbs absWith
  by_cases hp : filepathIsAbs path = true
  · simp [hp]
  · rcases h with h | h
    · exact absurd h hp
    · simp [hp, h]

/-- The paths of `writePidFile`: a cleaned rooted path `p` is `/`, and then the temporary path is
`/` too, or it ends in an element `c` after the elements `init`, and then the temporary path
has the same elements with `.c` for `c`, and both lie in the directory with the elements
`init`. -/
theorem tempPath_form (r : List Char) :
    (filepathClean (String.mk ('/' :: r)) = "/" ∧
      filepathJoin [filepathDir "/", "." ++ filepathBase "/"] = "/" ∧ filepathDir "/" = "/") ∨
    ∃ init c, (∀ e ∈ init, NormalElem e) ∧ NormalElem c ∧
      filepathClean (String.mk ('/' :: r)) = String.mk (rootedChars (init ++ [c])) ∧
      filepathJoin [filepathDir (filepathClean (String.mk ('/' :: r))),
        "." ++ filepathBase (filepathClean (String.mk ('/' :: r)))] =
        String.mk (rootedChars (init ++ ['.' :: c])) ∧
      filepathDir (String.mk (rootedChars (init ++ [c]))) = String.mk (rootedChars init) ∧
      filepathDir (String.mk (rootedChars (init ++ ['.' :: c]))) =
        String.mk (rootedChars init) := by
  obtain ⟨E, hE, hp⟩ := filepathClean_rooted_normal r
  rw [hp]
  rcases List.eq_nil_or_concat E with h | ⟨init, c, h⟩
  · subst h
    exact Or.inl ⟨rfl, by decide, by decide⟩
  · subst h
    rw [List.concat_eq_append] at hE ⊢
    right
    have hinit : ∀ e ∈ init, NormalElem e := fun e he => hE e (by simp [he])
    have hc : NormalElem c := hE c (by simp)
    refine ⟨init, c, hinit, hc, rfl, ?_, filepathDir_rooted init c hinit hc.2.2.2,
      filepathDir_rooted init ('.' :: c) hinit (dotElem_normal c hc).2.2.2⟩
    rw [filepathDir_rooted init c hinit hc.2.2.2, filepathBase_rooted init c hc,
      filepathJoin_dot init c hinit hc]

theorem rootedChars_dot_ne (init : List (List Char)) (c : List Char) :
    String.mk (rootedChars (init ++ ['.' :: c])) ≠ String.mk (rootedChars (init ++ [c])) := by
  intro h
  have h2 := congrArg String.data h
  simp only [rootedChars_concat] at h2
  have h3 := List.append_cancel_left h2
  simp only [List.cons.injEq, true_and] at h3
  have h4 := congrArg List.length h3
  simp at h4

theorem utf8Len_append (a b : List Char) : utf8Len (a ++ b) = utf8Len a + utf8Len b := by
  induction a with
  | nil => simp [utf8Len]
  | cons x xs ih =>
    rw [List.cons_append, utf8Len, utf8Len, ih]
    omega

theorem utf8Len_dot (c : List Char) : utf8Len ('.' :: c) = 1 + utf8Len c := by
  have h : '.'.toNat < 0x80 := by decide
  simp [utf8Len, h]

/-- A path that is admissible as a name stays so when the dot that starts its last element is
taken away. -/
theorem pathNameError_of_temp (nameMax pathMax : Nat) (init : List (List Char))
    (c : List Char) (hc : '/' ∉ c)
    (h : pathNameError nameMax pathMax (String.mk (rootedChars (init ++ ['.' :: c]))) = none) :
    pathNameError nameMax pathMax (String.mk (rootedChars (init ++ [c]))) = none := by
  have hd : '/' ∉ '.' :: c := by
    intro hm
    rcases List.mem_cons.mp hm with h1 | h1
    · cases h1
    · exact hc h1
  unfold pathNameError at h ⊢
  have e1 : (String.mk (rootedChars (init ++ ['.' :: c]))).toList =
    joinSlash init ++ '/' :: '.' :: c := rootedChars_concat init ('.' :: c)
  have e2 : (String.mk (rootedChars (init ++ [c]))).toList =
    joinSlash init ++ '/' :: c := rootedChars_concat init c
  rw [e1, splitSlash_append_slash _ _ hd] at h
  rw [e2, splitSlash_append_slash _ _ hc]
  have hslash : utf8Len ('/' :: '.' :: c) = 1 + utf8Len ('/' :: c) := by
    have h1 : '/'.toNat < 0x80 := by decide
    have h2 : '.'.toNat < 0x80 := by decide
    simp only [utf8Len, h1, h2, if_true]
  split at h
  · cases h
  · rename_i hnul
    split at h
    · cases h
    · rename_i hlen
      split at h
      · cases h
      · rename_i hany
        have hnul2 : Char.ofNat 0 ∉ joinSlash init ++ '/' :: c := by
          intro hm
          apply hnul
          rcases List.mem_append.mp hm with h1 | h1
          · exact List.mem_append_left _ h1
          · apply List.mem_append_right
            rcases List.mem_cons.mp h1 with h2 | h2
            · rw [h2]; exact List.mem_cons_self _ _
            · exact List.mem_cons_of_mem _ (List.mem_cons_of_mem _ h2)
        have hlen2 : ¬ utf8Len (joinSlash init ++ '/' :: c) + 1 > pathMax := by
          rw [utf8Len_append] at hlen ⊢
          rw [hslash] at hlen
          omega
        have hany2 : ¬ (splitSlash (joinSlash init) ++ [c]).any
            (fun e => utf8Len e > nameMax) = true := by
          intro hm
          apply hany
          rw [List.any_append] at hm ⊢
          rcases Bool.or_eq_true _ _ |>.mp hm with h1 | h1
          · rw [h1]; rfl
          · simp only [List.any_cons, List.any_nil, Bool.or_false, decide_eq_true_eq] at h1
            have : utf8Len ('.' :: c) > nameMax := by rw [utf8Len_dot]; omega
            simp [this]
        rw [if_neg hnul2, if_neg hlen2, if_neg hany2]

/-! ### The pid file -/

theorem GoMap.get?_erase {V : Type} (m : GoMap V) (k k' : String) :
    GoMap.get? (GoMap.erase m k) k' = if k = k' then none else GoMap.get? m k' := by
  unfold GoMap.get? GoMap.erase
  rw [List.find?_filter]
  by_cases h : k = k'
  · subst h
    simp
  · simp only [h, if_false]
    congr 2
    funext e
    by_cases h2 : e.1 = k'
    · simp [h2]
      exact fun h3 => h h3.symm
    · simp [h2]

/-- One call of `writePidFile` on a filesystem whose medium does not fail, in which the
temporary path is admissible as a name and does not exist, the directory of the target is a
writable directory and the target is not a directory: it returns no error, the target holds the
decimal text of the pid, and the conditions hold again. -/
theorem writePidFile_once (fs : FS) (wd path : String) (pid : Int)
    (hwd : filepathIsAbs path = true ∨ fs.cwd = .ok wd)
    (habs : filepathIsAbs wd = true)
    (hio : fs.ioError = none)
    (hname : pathNameError fs.nameMax fs.pathMax (filepathJoin [filepathDir (absWith wd path),
      "." ++ filepathBase (absWith wd path)]) = none)
    (ht : GoMap.get? fs.nodes (filepathJoin [filepathDir (absWith wd path),
      "." ++ filepathBase (absWith wd path)]) = none)
    (hd : fs.writableDir (filepathDir (absWith wd path)) = true)
    (hp : GoMap.get? fs.nodes (absWith wd path) ≠ some .dir) :
    (writePidFile fs path pid).2 = none ∧
    (writePidFile fs path pid).1.cwd = fs.cwd ∧
    (writePidFile fs path pid).1.ioError = fs.ioError ∧
    (writePidFile fs path pid).1.nameMax = fs.nameMax ∧
    (writePidFile fs path pid).1.pathMax = fs.pathMax ∧
    GoMap.get? (writePidFile fs path pid).1.nodes
      (filepathJoin [filepathDir (absWith wd path),
        "." ++ filepathBase (absWith wd path)]) = none ∧
    (writePidFile fs path pid).1.writableDir (filepathDir (absWith wd path)) = true ∧
    GoMap.get? (writePidFile fs path pid).1.nodes (absWith wd path) =
      some (.file (toString pid)) := by
  obtain ⟨r, hr⟩ := absWith_rooted wd path habs
  have hform := tempPath_form r
  rw [← hr] at hform
  unfold writePidFile
  rw [filepathAbs_eq fs.cwd wd path hwd]
  dsimp only
  generalize absWith wd path = p at *
  simp only [FS.writableDir, Bool.and_eq_true, decide_eq_true_eq] at hd
  rcases hform with ⟨h1, h2, h3⟩ | ⟨init, c, hinit, hc, hpe, hte, hdp, hdt⟩
  · exfalso
    rw [h1, h2] at ht
    rw [h1, h3, ht] at hd
    cases hd.1
  · have hne : filepathJoin [filepathDir p, "." ++ filepathBase p] ≠ p := by
      rw [hte, hpe]
      exact rootedChars_dot_ne init c
    have hdt2 : filepathDir (filepathJoin [filepathDir p, "." ++ filepathBase p]) =
        filepathDir p := by
      rw [hte, hpe, hdp, hdt]
    have hnp : pathNameError fs.nameMax fs.pathMax p = none := by
      rw [hpe]
      rw [hte] at hname
      exact pathNameError_of_temp _ _ init c hc.2.2.2 hname
    generalize filepathJoin [filepathDir p, "." ++ filepathBase p] = t at *
    have hdt3 : ¬ t = filepathDir p := by
      intro h
      rw [h, hd.1] at ht
      cases ht
    have hdp2 : ¬ p = filepathDir p := by
      intro h
      rw [← h] at hd
      exact hp hd.1
    have hpt : ¬ p = t := fun h => hne h.symm
    have hmem : filepathDir p ∈ fs.writable := by simpa using hd.2
    simp [FS.openExcl, FS.write, FS.rename, FS.writableDir, FS.stepError, hio, hname, hnp, ht, hdt2, hd.1, hmem, GoMap.get?_set, GoMap.get?_erase, hne, hdt3, hdp2, hpt, hp]

/-- C11 (amended). On a filesystem whose medium does not fail, in which the temporary path
`<dir>/.<base>` is admissible as a name (no NUL byte, no element over `NAME_MAX` bytes, fewer
than `PATH_MAX` bytes) and does not exist, the directory `<dir>` of the target is a writable
directory and the target is not itself a directory, for every path that is absolute or can be
resolved against the working directory `wd`, and all pids `p1` and `p2`:
`writePidFile(path, p1)` followed by `writePidFile(path, p2)` returns no error either time,
leaves at the target a file that holds exactly the decimal text of `p2`, with nothing after it,
and leaves nothing at the temporary path. -/
theorem writePidFile_twice (fs : FS) (wd path : String) (p1 p2 : Int)
    (hwd : filepathIsAbs path = true ∨ fs.cwd = .ok wd)
    (habs : filepathIsAbs wd = true)
    (hio : fs.ioError = none)
    (hname : pathNameError fs.nameMax fs.pathMax (filepathJoin [filepathDir (absWith wd path),
      "." ++ filepathBase (absWith wd path)]) = none)
    (ht : GoMap.get? fs.nodes (filepathJoin [filepathDir (absWith wd path),
      "." ++ filepathBase (absWith wd path)]) = none)
    (hd : fs.writableDir (filepathDir (absWith wd path)) = true)
    (hp : GoMap.get? fs.nodes (absWith wd path) ≠ some .dir) :
    (writePidFile fs path p1).2 = none ∧
    (writePidFile (writePidFile fs path p1).1 path p2).2 = none ∧
    GoMap.get? (writePidFile (writePidFile fs path p1).1 path p2).1.nodes
      (absWith wd path) = some (.file (toString p2)) ∧
    GoMap.get? (writePidFile (writePidFile fs path p1).1 path p2).1.nodes
      (filepathJoin [filepathDir (absWith wd path),
        "." ++ filepathBase (absWith wd path)]) = none := by
  obtain ⟨h1, hc1, hio1, hnm1, hpm1, ht1, hd1, hp1⟩ :=
    writePidFile_once fs wd path p1 hwd habs hio hname ht hd hp
  have hname1 : pathNameError (writePidFile fs path p1).1.nameMax
      (writePidFile fs path p1).1.pathMax
      (filepathJoin [filepathDir (absWith wd path),
        "." ++ filepathBase (absWith wd path)]) = none := by
    rw [hnm1, hpm1]
    exact hname
  have h2 := writePidFile_once (writePidFile fs path p1).1 wd path p2
    (by rw [hc1]; exact hwd) habs (by rw [hio1]; exact hio) hname1 ht1 hd1
    (by rw [hp1]; simp)
  exact ⟨h1, h2.1, h2.2.2.2.2.2.2.2, h2.2.2.2.2.2.1⟩

/-- C11, for the path `/run/s/c1.pid` given once in relative and once in absolute form, with
the pids 4242 and 17. -/
theorem writePidFile_twice_witness :
    (writePidFile (writePidFile fsEmptyRun "s/c1.pid" 4242).1 "s/c1.pid" 17).1.nodes =
      [("/run/s/c1.pid", .file "17"), ("/", .dir), ("/run", .dir), ("/run/s", .dir)] ∧
    ((writePidFile fsEmptyRun "/run/s/c1.pid" 4242).2 = none ∧
      (writePidFile (writePidFile fsEmptyRun "/run/s/c1.pid" 4242).1 "/run/s/c1.pid" 17).2 =
        none ∧
      GoMap.get? (writePidFile (writePidFile fsEmptyRun "/run/s/c1.pid" 4242).1
        "/run/s/c1.pid" 17).1.nodes (absWith "/run" "/run/s/c1.pid") =
        some (.file (toString (17 : Int))) ∧
      GoMap.get? (writePidFile (writePidFile fsEmptyRun "/run/s/c1.pid" 4242).1
        "/run/s/c1.pid" 17).1.nodes
        (filepathJoin [filepathDir (absWith "/run" "/run/s/c1.pid"),
          "." ++ filepathBase (absWith "/run" "/run/s/c1.pid")]) = none) :=
  ⟨by decide,
    writePidFile_twice fsEmptyRun "/run" "/run/s/c1.pid" 4242 17 (by decide) (by decide)
      (by decide) (by decide) (by decide) (by decide) (by decide)⟩

set_option maxRecDepth 100000 in
/-- C11 fails as stated. In each of these filesystems `<dir>/.<base>` does not exist and `<dir>`,
which is `/run/s`, is a writable directory. When `/run/s/c1.pid` is a directory, the first
`writePidFile` creates the temporary file, fails to rename it onto the directory and leaves it
behind, and the second call then fails to create the temporary file. When the last element of
the path has 255 bytes, the temporary name has 256 and cannot be created. A path with a NUL
byte, a relative path when the working directory cannot be determined, and a medium without
space left make the first call fail as well. -/
theorem writePidFile_fails_under_claimed_conditions :
    (GoMap.get? fsPidIsDir.nodes "/run/s/.c1.pid" = none ∧
      fsPidIsDir.writableDir "/run/s" = true ∧
      (writePidFile fsPidIsDir "/run/s/c1.pid" 4242).2 = some (.ext "file exists") ∧
      GoMap.get? (writePidFile fsPidIsDir "/run/s/c1.pid" 4242).1.nodes "/run/s/.c1.pid" =
        some (.file "4242") ∧
      (writePidFile (writePidFile fsPidIsDir "/run/s/c1.pid" 4242).1 "/run/s/c1.pid" 17).2 =
        some (.ext "file exists") ∧
      GoMap.get? (writePidFile (writePidFile fsPidIsDir "/run/s/c1.pid" 4242).1
        "/run/s/c1.pid" 17).1.nodes "/run/s/c1.pid" = some .dir) ∧
    (filepathDir longPidPath = "/run/s" ∧
      utf8Len (filepathBase longPidPath).toList = 255 ∧
      GoMap.get? fsEmptyRun.nodes
        (filepathJoin [filepathDir longPidPath, "." ++ filepathBase longPidPath]) = none ∧
      fsEmptyRun.writableDir "/run/s" = true ∧
      GoMap.get? fsEmptyRun.nodes longPidPath = none ∧
      (writePidFile fsEmptyRun longPidPath 4242).2 = some (.ext "file name too long")) ∧
    (writePidFile fsEmptyRun "/run/s/a\x00b" 4242).2 = some (.ext "invalid argument") ∧
    (writePidFile { fsEmptyRun with cwd := .error (.ext "getwd: no such file or directory") }
      "s/c1.pid" 4242).2 = some (.ext "getwd: no such file or directory") ∧
    (writePidFile { fsEmptyRun with ioError := some (.ext "no space left on device") }
      "/run/s/c1.pid" 4242).2 = some (.ext "no space left on device") := by
  decide

end Ocihook
